import Mathlib

/-!
# A shallow embedding of the neo-vm-rs execution engine

This development embeds, in Lean 4, the parts of the `neo-vm-rs` source tree
that the verified properties talk about:

* the `StackItem` value algebra and its truthiness (`get_boolean`),
  from `src/types/*`;
* the opcode table, instruction decoding (`Instruction::from_script`) and
  instruction sizing, from `src/vm/op_code.rs` and `src/vm/instruction.rs`;
* the execution-engine limits and their assertion helpers, from
  `src/types/execution_engine_limits.rs`;
* the dispatch loop (`execute_next`, `pre_execute_instruction`,
  `execute_instr`, `post_execute_instruction`) with the opcode handlers the
  properties exercise, from `src/vm/execution_engine.rs`;
* the evaluation-stack / reference-counter bookkeeping
  (`push`, `insert`, `pop`, `remove`, `clear`, `copy_to`, `move_to`,
  `add_stack_reference`, `remove_stack_reference`), from
  `src/vm/evaluation_stack.rs` and `src/types/reference_counter.rs`.

Modelling conventions:

* Rust `panic!` sites (including implicit ones: out-of-bounds indexing,
  `Option::unwrap` on `None`, `BigInt` division by zero, checked-arithmetic
  unwraps) are modelled as an explicit `panic` outcome carrying a message.
  A panic is distinct from a VM fault (`VMState.fault`): a panic aborts the
  host process, a fault is an ordinary terminal VM state.
* Rust machine integers are modelled as `Nat`/`Int` with explicit wrapping
  (`% 2 ^ 64`) where a cast can wrap (`as usize` on a negative `i32`).
* Several match arms of `pre_execute_instruction` / `post_execute_instruction`
  in the source pattern-match on `Instruction::JMP(..)`, `Instruction::CALL(..)`
  and `Instruction::THROW`, constructors that do not exist anywhere in the
  source tree; those arms are omitted here.  The `Instruction::RET` arm of
  `post_execute_instruction` refers to the associated constant
  `Instruction::RET` (opcode `Ret`, empty operand), which does exist, and is
  modelled as a match on the `Ret` opcode.
-/

set_option maxRecDepth 4096

namespace NeoVM

/-! ## The value algebra (`src/types`)

`StackItem` is the closed sum of value kinds manipulated by opcodes.
Compound values are embedded structurally (an `Array` holds the list of its
elements); object identity, which only matters for the reference counter,
is treated separately in the `RC` model below. -/

inductive StackItem where
  /-- `Null` (src/types/null.rs). -/
  | vmNull : StackItem
  /-- `Boolean` (src/types/primitive_types/boolean.rs). -/
  | vmBoolean (value : Bool) : StackItem
  /-- `Integer` (src/types/primitive_types/integer.rs); `BigInt` value. -/
  | vmInteger (value : Int) : StackItem
  /-- `ByteString` (src/types/primitive_types/byte_string.rs); bytes. -/
  | vmByteString (bytes : List Nat) : StackItem
  /-- `Buffer` (src/types/buffer.rs); mutable bytes. -/
  | vmBuffer (bytes : List Nat) : StackItem
  /-- `Pointer` (src/types/pointer.rs); script bytes and a position. -/
  | vmPointer (script : List Nat) (position : Nat) : StackItem
  /-- `Array` (src/types/compound_types/array.rs). -/
  | vmArray (items : List StackItem) : StackItem
  /-- `Struct` (src/types/compound_types/Struct.rs). -/
  | vmStruct (items : List StackItem) : StackItem
  /-- `Map` (src/types/compound_types/map.rs); insertion-ordered pairs. -/
  | vmMap (pairs : List (StackItem × StackItem)) : StackItem
  /-- `InteropInterface` (src/types/interop_interface.rs); identity only. -/
  | vmInterop (id : Nat) : StackItem
deriving Repr

/-- `get_boolean` as implemented by each `StackItem` variant:

* `Null::get_boolean` returns `false` (null.rs line 104);
* `Boolean::get_boolean` returns `self.value` (primitive_types/boolean.rs 125);
* `Integer::get_boolean` returns `!self.value.is_zero()`
  (primitive_types/integer.rs 242);
* `ByteString::get_boolean` returns `self.bytes.iter().all(|&x| x == 0x00)`
  (primitive_types/byte_string.rs 160-162);
* `Buffer::get_boolean` returns `true` (buffer.rs 130-132);
* `Pointer::get_boolean` returns `true` (pointer.rs 121);
* `Array`/`Struct`/`Map::get_boolean` return `true`
  (compound_types/array.rs 204, Struct.rs 245, map.rs 183);
* `InteropInterface::get_boolean` returns `true` (interop_interface.rs 41). -/
def getBoolean : StackItem → Bool
  | .vmNull => false
  | .vmBoolean b => b
  | .vmInteger n => !(n == 0)
  | .vmByteString bs => bs.all (fun b => b == 0)
  | .vmBuffer _ => true
  | .vmPointer _ _ => true
  | .vmArray _ => true
  | .vmStruct _ => true
  | .vmMap _ => true
  | .vmInterop _ => true

/-- Truthiness as the specification claims it (spec section 4.3,
"Truthiness"): `Null` is false, `Boolean(x)` is `x`, `Integer(n)` is
`n ≠ 0`, `ByteString`/`Buffer` are true exactly when at least one byte is
non-zero, compounds and `InteropInterface` are true.  The spec does not
mention `Pointer`; it is given the implementation's value `true` so that it
cannot influence a comparison. -/
def claimBooleanSpec : StackItem → Bool
  | .vmNull => false
  | .vmBoolean b => b
  | .vmInteger n => decide (n ≠ 0)
  | .vmByteString bs => decide (∃ b ∈ bs, b ≠ 0)
  | .vmBuffer bs => decide (∃ b ∈ bs, b ≠ 0)
  | .vmPointer _ _ => true
  | .vmArray _ => true
  | .vmStruct _ => true
  | .vmMap _ => true
  | .vmInterop _ => true

/-- Truthiness as the code actually computes it, stated in spec words: as
`claimBooleanSpec` except that a `ByteString` is true exactly when all of
its bytes are zero (so the empty and all-zero strings are true and any
string with a non-zero byte is false), and a `Buffer` is always true. -/
def amendedBooleanSpec : StackItem → Bool
  | .vmNull => false
  | .vmBoolean b => b
  | .vmInteger n => decide (n ≠ 0)
  | .vmByteString bs => decide (∀ b ∈ bs, b = 0)
  | .vmBuffer _ => true
  | .vmPointer _ _ => true
  | .vmArray _ => true
  | .vmStruct _ => true
  | .vmMap _ => true
  | .vmInterop _ => true

/-! ## Execution-engine limits (`src/types/execution_engine_limits.rs`) -/

/-- `ExecutionEngineLimits`. -/
structure Limits where
  maxShift : Nat
  maxStackSize : Nat
  maxItemSize : Nat
  maxComparableSize : Nat
  maxInvocationStackSize : Nat
  maxTryNestingDepth : Nat
  catchEngineExceptions : Bool
deriving Repr, DecidableEq

/-- `ExecutionEngineLimits::default` (execution_engine_limits.rs 28-40). -/
def Limits.default : Limits :=
  { maxShift := 256
    maxStackSize := 2 * 1024
    maxItemSize := 1024 * 1024
    maxComparableSize := 65536
    maxInvocationStackSize := 1024
    maxTryNestingDepth := 16
    catchEngineExceptions := true }

/-- The condition under which `ExecutionEngineLimits::assert_max_item_size`
panics (execution_engine_limits.rs 44-49): `size == 0 || size > max_item_size`.
`true` means the assertion fires and the operation fails. -/
def Limits.assertMaxItemSizeFails (l : Limits) (size : Nat) : Bool :=
  size == 0 || size > l.maxItemSize

/-- The condition under which `ExecutionEngineLimits::assert_shift` panics
(execution_engine_limits.rs 52-57). -/
def Limits.assertShiftFails (l : Limits) (shift : Int) : Bool :=
  shift > (l.maxShift : Int) || shift < 0


/-! ## Opcodes and instruction decoding (`src/vm/op_code.rs`, `src/vm/instruction.rs`) -/

/-- The opcode byte values (src/vm/op_code.rs 5-212). -/
inductive OpCode where
  | PushInt8
  | PushInt16
  | PushInt32
  | PushInt64
  | PushInt128
  | PushInt256
  | PushTrue
  | PushFalse
  | PushA
  | PushNull
  | PushData1
  | PushData2
  | PushData4
  | PushM1
  | Push0
  | Push1
  | Push2
  | Push3
  | Push4
  | Push5
  | Push6
  | Push7
  | Push8
  | Push9
  | Push10
  | Push11
  | Push12
  | Push13
  | Push14
  | Push15
  | Push16
  | Nop
  | Jmp
  | JmpL
  | JmpIf
  | JmpIfL
  | JmpIfNot
  | JmpIfNotL
  | JmpEq
  | JmpEqL
  | JmpNe
  | JmpNeL
  | JmpGt
  | JmpGtL
  | JmpGe
  | JmpGeL
  | JmpLt
  | JmpLtL
  | JmpLe
  | JmpLeL
  | Call
  | CallL
  | CallA
  | CallT
  | Abort
  | Assert
  | Throw
  | Try
  | TryL
  | EndTry
  | EndTryL
  | EndFinally
  | Ret
  | Syscall
  | Depth
  | Drop
  | Nip
  | Xdrop
  | Clear
  | Dup
  | Over
  | Pick
  | Tuck
  | Swap
  | Rot
  | Roll
  | Reverse3
  | Reverse4
  | ReverseN
  | InitSSLot
  | InitSlot
  | LdSFLd0
  | LdSFLd1
  | LdSFLd2
  | LdSFLd3
  | LdSFLd4
  | LdSFLd5
  | LdSFLd6
  | LdSFLd
  | StSFLd0
  | StSFLd1
  | StSFLd2
  | StSFLd3
  | StSFLd4
  | StSFLd5
  | StSFLd6
  | StSFLd
  | LdLoc0
  | LdLoc1
  | LdLoc2
  | LdLoc3
  | LdLoc4
  | LdLoc5
  | LdLoc6
  | LdLoc
  | StLoc0
  | StLoc1
  | StLoc2
  | StLoc3
  | StLoc4
  | StLoc5
  | StLoc6
  | StLoc
  | LdArg0
  | LdArg1
  | LdArg2
  | LdArg3
  | LdArg4
  | LdArg5
  | LdArg6
  | LdArg
  | StArg0
  | StArg1
  | StArg2
  | StArg3
  | StArg4
  | StArg5
  | StArg6
  | StArg
  | NewBuffer
  | MemCpy
  | Cat
  | Substr
  | Left
  | Right
  | Invert
  | And
  | Or
  | Xor
  | Equal
  | NotEqual
  | Sign
  | Abs
  | Negate
  | Inc
  | Dec
  | Add
  | Sub
  | Mul
  | Div
  | Mod
  | Pow
  | Sqrt
  | ModMul
  | ModPow
  | Shl
  | Shr
  | Not
  | BoolAnd
  | BoolOr
  | Nz
  | NumEqual
  | NumNotEqual
  | Lt
  | Le
  | Gt
  | Ge
  | Min
  | Max
  | Within
  | PackMap
  | PackStruct
  | Pack
  | Unpack
  | NewArray0
  | NewArray
  | NewArrayT
  | NewStruct0
  | NewStruct
  | NewMap
  | Size
  | HasKey
  | Keys
  | Values
  | PickItem
  | Append
  | SetItem
  | ReverseItems
  | Remove
  | ClearItems
  | PopItem
  | IsNull
  | IsType
  | Convert
  | AbortMsg
  | AssertMsg
deriving Repr

/-- The byte assigned to each opcode (the discriminant values of the Rust enum). -/
def OpCode.toByte : OpCode → Nat
  | .PushInt8 => 0x00
  | .PushInt16 => 0x01
  | .PushInt32 => 0x02
  | .PushInt64 => 0x03
  | .PushInt128 => 0x04
  | .PushInt256 => 0x05
  | .PushTrue => 0x08
  | .PushFalse => 0x09
  | .PushA => 0x0A
  | .PushNull => 0x0B
  | .PushData1 => 0x0C
  | .PushData2 => 0x0D
  | .PushData4 => 0x0E
  | .PushM1 => 0x0F
  | .Push0 => 0x10
  | .Push1 => 0x11
  | .Push2 => 0x12
  | .Push3 => 0x13
  | .Push4 => 0x14
  | .Push5 => 0x15
  | .Push6 => 0x16
  | .Push7 => 0x17
  | .Push8 => 0x18
  | .Push9 => 0x19
  | .Push10 => 0x1A
  | .Push11 => 0x1B
  | .Push12 => 0x1C
  | .Push13 => 0x1D
  | .Push14 => 0x1E
  | .Push15 => 0x1F
  | .Push16 => 0x20
  | .Nop => 0x21
  | .Jmp => 0x22
  | .JmpL => 0x23
  | .JmpIf => 0x24
  | .JmpIfL => 0x25
  | .JmpIfNot => 0x26
  | .JmpIfNotL => 0x27
  | .JmpEq => 0x28
  | .JmpEqL => 0x29
  | .JmpNe => 0x2A
  | .JmpNeL => 0x2B
  | .JmpGt => 0x2C
  | .JmpGtL => 0x2D
  | .JmpGe => 0x2E
  | .JmpGeL => 0x2F
  | .JmpLt => 0x30
  | .JmpLtL => 0x31
  | .JmpLe => 0x32
  | .JmpLeL => 0x33
  | .Call => 0x34
  | .CallL => 0x35
  | .CallA => 0x36
  | .CallT => 0x37
  | .Abort => 0x38
  | .Assert => 0x39
  | .Throw => 0x3A
  | .Try => 0x3B
  | .TryL => 0x3C
  | .EndTry => 0x3D
  | .EndTryL => 0x3E
  | .EndFinally => 0x3F
  | .Ret => 0x40
  | .Syscall => 0x41
  | .Depth => 0x43
  | .Drop => 0x45
  | .Nip => 0x46
  | .Xdrop => 0x48
  | .Clear => 0x49
  | .Dup => 0x4A
  | .Over => 0x4B
  | .Pick => 0x4D
  | .Tuck => 0x4E
  | .Swap => 0x50
  | .Rot => 0x51
  | .Roll => 0x52
  | .Reverse3 => 0x53
  | .Reverse4 => 0x54
  | .ReverseN => 0x55
  | .InitSSLot => 0x56
  | .InitSlot => 0x57
  | .LdSFLd0 => 0x58
  | .LdSFLd1 => 0x59
  | .LdSFLd2 => 0x5A
  | .LdSFLd3 => 0x5B
  | .LdSFLd4 => 0x5C
  | .LdSFLd5 => 0x5D
  | .LdSFLd6 => 0x5E
  | .LdSFLd => 0x5F
  | .StSFLd0 => 0x60
  | .StSFLd1 => 0x61
  | .StSFLd2 => 0x62
  | .StSFLd3 => 0x63
  | .StSFLd4 => 0x64
  | .StSFLd5 => 0x65
  | .StSFLd6 => 0x66
  | .StSFLd => 0x67
  | .LdLoc0 => 0x68
  | .LdLoc1 => 0x69
  | .LdLoc2 => 0x6A
  | .LdLoc3 => 0x6B
  | .LdLoc4 => 0x6C
  | .LdLoc5 => 0x6D
  | .LdLoc6 => 0x6E
  | .LdLoc => 0x6F
  | .StLoc0 => 0x70
  | .StLoc1 => 0x71
  | .StLoc2 => 0x72
  | .StLoc3 => 0x73
  | .StLoc4 => 0x74
  | .StLoc5 => 0x75
  | .StLoc6 => 0x76
  | .StLoc => 0x77
  | .LdArg0 => 0x78
  | .LdArg1 => 0x79
  | .LdArg2 => 0x7A
  | .LdArg3 => 0x7B
  | .LdArg4 => 0x7C
  | .LdArg5 => 0x7D
  | .LdArg6 => 0x7E
  | .LdArg => 0x7F
  | .StArg0 => 0x80
  | .StArg1 => 0x81
  | .StArg2 => 0x82
  | .StArg3 => 0x83
  | .StArg4 => 0x84
  | .StArg5 => 0x85
  | .StArg6 => 0x86
  | .StArg => 0x87
  | .NewBuffer => 0x88
  | .MemCpy => 0x89
  | .Cat => 0x8B
  | .Substr => 0x8C
  | .Left => 0x8D
  | .Right => 0x8E
  | .Invert => 0x90
  | .And => 0x91
  | .Or => 0x92
  | .Xor => 0x93
  | .Equal => 0x97
  | .NotEqual => 0x98
  | .Sign => 0x99
  | .Abs => 0x9A
  | .Negate => 0x9B
  | .Inc => 0x9C
  | .Dec => 0x9D
  | .Add => 0x9E
  | .Sub => 0x9F
  | .Mul => 0xA0
  | .Div => 0xA1
  | .Mod => 0xA2
  | .Pow => 0xA3
  | .Sqrt => 0xA4
  | .ModMul => 0xA5
  | .ModPow => 0xA6
  | .Shl => 0xA8
  | .Shr => 0xA9
  | .Not => 0xAA
  | .BoolAnd => 0xAB
  | .BoolOr => 0xAC
  | .Nz => 0xB1
  | .NumEqual => 0xB3
  | .NumNotEqual => 0xB4
  | .Lt => 0xB5
  | .Le => 0xB6
  | .Gt => 0xB7
  | .Ge => 0xB8
  | .Min => 0xB9
  | .Max => 0xBA
  | .Within => 0xBB
  | .PackMap => 0xBE
  | .PackStruct => 0xBF
  | .Pack => 0xC0
  | .Unpack => 0xC1
  | .NewArray0 => 0xC2
  | .NewArray => 0xC3
  | .NewArrayT => 0xC4
  | .NewStruct0 => 0xC5
  | .NewStruct => 0xC6
  | .NewMap => 0xC8
  | .Size => 0xCA
  | .HasKey => 0xCB
  | .Keys => 0xCC
  | .Values => 0xCD
  | .PickItem => 0xCE
  | .Append => 0xCF
  | .SetItem => 0xD0
  | .ReverseItems => 0xD1
  | .Remove => 0xD2
  | .ClearItems => 0xD3
  | .PopItem => 0xD4
  | .IsNull => 0xD8
  | .IsType => 0xD9
  | .Convert => 0xDB
  | .AbortMsg => 0xE0
  | .AssertMsg => 0xE1


/-- The `OPERAND_SIZES` table (op_code.rs 219-272): for each opcode with an
operand, the pair (prefix byte count, fixed operand size).  `none` for
opcodes absent from the table. -/
def OpCode.operandInfo : OpCode → Option (Nat × Nat)
  | .PushInt8 => some (0, 1)
  | .PushInt16 => some (0, 2)
  | .PushInt32 => some (0, 4)
  | .PushInt64 => some (0, 8)
  | .PushInt128 => some (0, 16)
  | .PushInt256 => some (0, 32)
  | .PushA => some (0, 4)
  | .PushData1 => some (1, 0)
  | .PushData2 => some (2, 0)
  | .PushData4 => some (4, 0)
  | .Jmp => some (0, 1)
  | .JmpL => some (0, 4)
  | .JmpIf => some (0, 1)
  | .JmpIfL => some (0, 4)
  | .JmpIfNot => some (0, 1)
  | .JmpIfNotL => some (0, 4)
  | .JmpEq => some (0, 1)
  | .JmpEqL => some (0, 4)
  | .JmpNe => some (0, 1)
  | .JmpNeL => some (0, 4)
  | .JmpGt => some (0, 1)
  | .JmpGtL => some (0, 4)
  | .JmpGe => some (0, 1)
  | .JmpGeL => some (0, 4)
  | .JmpLt => some (0, 1)
  | .JmpLtL => some (0, 4)
  | .JmpLe => some (0, 1)
  | .JmpLeL => some (0, 4)
  | .Call => some (0, 1)
  | .CallL => some (0, 4)
  | .CallT => some (0, 2)
  | .Try => some (0, 2)
  | .TryL => some (0, 8)
  | .EndTry => some (0, 1)
  | .EndTryL => some (0, 4)
  | .Syscall => some (0, 4)
  | .InitSSLot => some (0, 1)
  | .InitSlot => some (0, 2)
  | .LdSFLd => some (0, 1)
  | .StSFLd => some (0, 1)
  | .LdLoc => some (0, 1)
  | .StLoc => some (0, 1)
  | .LdArg => some (0, 1)
  | .StArg => some (0, 1)
  | .NewArrayT => some (0, 1)
  | .IsType => some (0, 1)
  | .Convert => some (0, 1)
  | _ => none

/-- Opcodes are compared through their assigned bytes (the discriminants),
as `PartialEq` on a fieldless Rust enum does. -/
instance : BEq OpCode := ⟨fun a b => a.toByte == b.toByte⟩

/-- `OpCode::try_from(byte)`: the opcode assigned to a byte, `none` for the
unassigned bytes (0x06, 0x07, 0x42, ...).  Tabulated byte by byte from the
enum discriminants. -/
def OpCode.ofByte : Nat → Option OpCode
  | 0x00 => some .PushInt8
  | 0x01 => some .PushInt16
  | 0x02 => some .PushInt32
  | 0x03 => some .PushInt64
  | 0x04 => some .PushInt128
  | 0x05 => some .PushInt256
  | 0x08 => some .PushTrue
  | 0x09 => some .PushFalse
  | 0x0A => some .PushA
  | 0x0B => some .PushNull
  | 0x0C => some .PushData1
  | 0x0D => some .PushData2
  | 0x0E => some .PushData4
  | 0x0F => some .PushM1
  | 0x10 => some .Push0
  | 0x11 => some .Push1
  | 0x12 => some .Push2
  | 0x13 => some .Push3
  | 0x14 => some .Push4
  | 0x15 => some .Push5
  | 0x16 => some .Push6
  | 0x17 => some .Push7
  | 0x18 => some .Push8
  | 0x19 => some .Push9
  | 0x1A => some .Push10
  | 0x1B => some .Push11
  | 0x1C => some .Push12
  | 0x1D => some .Push13
  | 0x1E => some .Push14
  | 0x1F => some .Push15
  | 0x20 => some .Push16
  | 0x21 => some .Nop
  | 0x22 => some .Jmp
  | 0x23 => some .JmpL
  | 0x24 => some .JmpIf
  | 0x25 => some .JmpIfL
  | 0x26 => some .JmpIfNot
  | 0x27 => some .JmpIfNotL
  | 0x28 => some .JmpEq
  | 0x29 => some .JmpEqL
  | 0x2A => some .JmpNe
  | 0x2B => some .JmpNeL
  | 0x2C => some .JmpGt
  | 0x2D => some .JmpGtL
  | 0x2E => some .JmpGe
  | 0x2F => some .JmpGeL
  | 0x30 => some .JmpLt
  | 0x31 => some .JmpLtL
  | 0x32 => some .JmpLe
  | 0x33 => some .JmpLeL
  | 0x34 => some .Call
  | 0x35 => some .CallL
  | 0x36 => some .CallA
  | 0x37 => some .CallT
  | 0x38 => some .Abort
  | 0x39 => some .Assert
  | 0x3A => some .Throw
  | 0x3B => some .Try
  | 0x3C => some .TryL
  | 0x3D => some .EndTry
  | 0x3E => some .EndTryL
  | 0x3F => some .EndFinally
  | 0x40 => some .Ret
  | 0x41 => some .Syscall
  | 0x43 => some .Depth
  | 0x45 => some .Drop
  | 0x46 => some .Nip
  | 0x48 => some .Xdrop
  | 0x49 => some .Clear
  | 0x4A => some .Dup
  | 0x4B => some .Over
  | 0x4D => some .Pick
  | 0x4E => some .Tuck
  | 0x50 => some .Swap
  | 0x51 => some .Rot
  | 0x52 => some .Roll
  | 0x53 => some .Reverse3
  | 0x54 => some .Reverse4
  | 0x55 => some .ReverseN
  | 0x56 => some .InitSSLot
  | 0x57 => some .InitSlot
  | 0x58 => some .LdSFLd0
  | 0x59 => some .LdSFLd1
  | 0x5A => some .LdSFLd2
  | 0x5B => some .LdSFLd3
  | 0x5C => some .LdSFLd4
  | 0x5D => some .LdSFLd5
  | 0x5E => some .LdSFLd6
  | 0x5F => some .LdSFLd
  | 0x60 => some .StSFLd0
  | 0x61 => some .StSFLd1
  | 0x62 => some .StSFLd2
  | 0x63 => some .StSFLd3
  | 0x64 => some .StSFLd4
  | 0x65 => some .StSFLd5
  | 0x66 => some .StSFLd6
  | 0x67 => some .StSFLd
  | 0x68 => some .LdLoc0
  | 0x69 => some .LdLoc1
  | 0x6A => some .LdLoc2
  | 0x6B => some .LdLoc3
  | 0x6C => some .LdLoc4
  | 0x6D => some .LdLoc5
  | 0x6E => some .LdLoc6
  | 0x6F => some .LdLoc
  | 0x70 => some .StLoc0
  | 0x71 => some .StLoc1
  | 0x72 => some .StLoc2
  | 0x73 => some .StLoc3
  | 0x74 => some .StLoc4
  | 0x75 => some .StLoc5
  | 0x76 => some .StLoc6
  | 0x77 => some .StLoc
  | 0x78 => some .LdArg0
  | 0x79 => some .LdArg1
  | 0x7A => some .LdArg2
  | 0x7B => some .LdArg3
  | 0x7C => some .LdArg4
  | 0x7D => some .LdArg5
  | 0x7E => some .LdArg6
  | 0x7F => some .LdArg
  | 0x80 => some .StArg0
  | 0x81 => some .StArg1
  | 0x82 => some .StArg2
  | 0x83 => some .StArg3
  | 0x84 => some .StArg4
  | 0x85 => some .StArg5
  | 0x86 => some .StArg6
  | 0x87 => some .StArg
  | 0x88 => some .NewBuffer
  | 0x89 => some .MemCpy
  | 0x8B => some .Cat
  | 0x8C => some .Substr
  | 0x8D => some .Left
  | 0x8E => some .Right
  | 0x90 => some .Invert
  | 0x91 => some .And
  | 0x92 => some .Or
  | 0x93 => some .Xor
  | 0x97 => some .Equal
  | 0x98 => some .NotEqual
  | 0x99 => some .Sign
  | 0x9A => some .Abs
  | 0x9B => some .Negate
  | 0x9C => some .Inc
  | 0x9D => some .Dec
  | 0x9E => some .Add
  | 0x9F => some .Sub
  | 0xA0 => some .Mul
  | 0xA1 => some .Div
  | 0xA2 => some .Mod
  | 0xA3 => some .Pow
  | 0xA4 => some .Sqrt
  | 0xA5 => some .ModMul
  | 0xA6 => some .ModPow
  | 0xA8 => some .Shl
  | 0xA9 => some .Shr
  | 0xAA => some .Not
  | 0xAB => some .BoolAnd
  | 0xAC => some .BoolOr
  | 0xB1 => some .Nz
  | 0xB3 => some .NumEqual
  | 0xB4 => some .NumNotEqual
  | 0xB5 => some .Lt
  | 0xB6 => some .Le
  | 0xB7 => some .Gt
  | 0xB8 => some .Ge
  | 0xB9 => some .Min
  | 0xBA => some .Max
  | 0xBB => some .Within
  | 0xBE => some .PackMap
  | 0xBF => some .PackStruct
  | 0xC0 => some .Pack
  | 0xC1 => some .Unpack
  | 0xC2 => some .NewArray0
  | 0xC3 => some .NewArray
  | 0xC4 => some .NewArrayT
  | 0xC5 => some .NewStruct0
  | 0xC6 => some .NewStruct
  | 0xC8 => some .NewMap
  | 0xCA => some .Size
  | 0xCB => some .HasKey
  | 0xCC => some .Keys
  | 0xCD => some .Values
  | 0xCE => some .PickItem
  | 0xCF => some .Append
  | 0xD0 => some .SetItem
  | 0xD1 => some .ReverseItems
  | 0xD2 => some .Remove
  | 0xD3 => some .ClearItems
  | 0xD4 => some .PopItem
  | 0xD8 => some .IsNull
  | 0xD9 => some .IsType
  | 0xDB => some .Convert
  | 0xE0 => some .AbortMsg
  | 0xE1 => some .AssertMsg
  | _ => none

/-- `operand_prefix().unwrap_or(0)`: the prefix length, with opcodes absent
from the table (whose lookup is an `Err`) defaulted to 0. -/
def OpCode.prefixSizeD (c : OpCode) : Nat :=
  (c.operandInfo.map Prod.fst).getD 0

/-- `operand_size().unwrap_or(0)`: the fixed operand length, with opcodes
absent from the table defaulted to 0. -/
def OpCode.operandSizeD (c : OpCode) : Nat :=
  (c.operandInfo.map Prod.snd).getD 0

/-- A decoded instruction (instruction.rs 4-8). -/
structure Instruction where
  opcode : OpCode
  operand : List Nat
deriving Repr

/-- `Instruction::RET` (instruction.rs 18). -/
def Instruction.RET : Instruction := { opcode := .Ret, operand := [] }

/-- `Instruction::size` (instruction.rs 20-27): `1 + prefix + operand.len()`
when the opcode has a length prefix, otherwise `1 + operand_size`. -/
def Instruction.size (i : Instruction) : Nat :=
  let prefixSize := i.opcode.prefixSizeD
  if prefixSize > 0 then 1 + prefixSize + i.operand.length
  else 1 + i.opcode.operandSizeD

/-- A little-endian unsigned read of a byte list. -/
def leNat (bytes : List Nat) : Nat :=
  bytes.foldr (fun b acc => b + 256 * acc) 0

/-- A byte reinterpreted as a signed `i8`. -/
def i8OfByte (b : Nat) : Int :=
  if b < 128 then (b : Int) else (b : Int) - 256

/-- Four little-endian bytes reinterpreted as a signed `i32`. -/
def i32OfLe (bytes : List Nat) : Int :=
  let v := leNat bytes
  if v < 2 ^ 31 then (v : Int) else (v : Int) - 2 ^ 32

/-- `as usize` on a signed value: two's-complement wrap into 64 bits. -/
def usizeOfInt (v : Int) : Nat :=
  (v % 2 ^ 64).toNat

/-- The outcome of `Instruction::from_script`.  `panic` models the Rust
panics raised by out-of-bounds `script[i]` indexing and `script[a..b]`
slicing; `errInvalidOpcode` models the `Err` returned by
`OpCode::try_from` on an unassigned byte; `errInvalidPrefixSize` models
`Error::InvalidPrefixSize`.  The `Error::OperandOutOfBounds` variant
declared in instruction.rs 15 is never constructed by the source and hence
never appears here. -/
inductive DecodeResult where
  | ok (instruction : Instruction)
  | errInvalidOpcode
  | errInvalidPrefixSize
  | panic (msg : String)
deriving Repr

/-- `Instruction::from_script(script, ip)` (instruction.rs 66-98).  Reads the
opcode byte (a panic when `ip` is out of range), resolves the operand shape,
reads a length prefix when present (panics on out-of-range reads; a 4-byte
prefix is read as `i32` and cast `as usize`), and slices the operand
(a panic when the slice `ip..ip+operand_size` leaves the script). -/
def fromScript (script : List Nat) (ip : Nat) : DecodeResult :=
  match script[ip]? with
  | none => .panic "index out of bounds"
  | some b =>
    match OpCode.ofByte b with
    | none => .errInvalidOpcode
    | some opcode =>
      let ip1 := ip + 1
      let sizeStep : DecodeResult ⊕ (Nat × Nat) :=
        match opcode.prefixSizeD with
        | 0 => Sum.inr (ip1, opcode.operandSizeD)
        | 1 =>
          match script[ip1]? with
          | none => Sum.inl (.panic "index out of bounds")
          | some s => Sum.inr (ip1 + 1, s)
        | 2 =>
          match script[ip1]?, script[ip1 + 1]? with
          | some b0, some b1 => Sum.inr (ip1 + 2, leNat [b0, b1])
          | _, _ => Sum.inl (.panic "index out of bounds")
        | 4 =>
          match script[ip1]?, script[ip1 + 1]?, script[ip1 + 2]?, script[ip1 + 3]? with
          | some b0, some b1, some b2, some b3 =>
            Sum.inr (ip1 + 4, usizeOfInt (i32OfLe [b0, b1, b2, b3]))
          | _, _, _, _ => Sum.inl (.panic "index out of bounds")
        | _ => Sum.inl .errInvalidPrefixSize
      match sizeStep with
      | Sum.inl r => r
      | Sum.inr (ip2, operandSize) =>
        if ip2 + operandSize > script.length then .panic "slice out of bounds"
        else .ok { opcode := opcode, operand := (script.drop ip2).take operandSize }



/-! ## The execution engine (`src/vm/execution_engine.rs`)

The engine state and the dispatch pipeline
(`execute_next` = fetch, `pre_execute_instruction`, `execute_instr`,
`post_execute_instruction`, `move_next`).  The opcode handlers embedded in
`Engine.executeInstr` are exactly the ones the verified properties
exercise; every other opcode falls to a clearly-marked modelling boundary
that no theorem touches. -/

/-- `VMState` (src/vm/vm_state.rs): `nost` is `None`, `brk` is `Break`. -/
inductive VMState where
  | nost
  | halt
  | fault
  | brk
deriving Repr, DecidableEq

/-- `ExceptionHandlingState` (src/exception/exception_handling_state.rs). -/
inductive ExceptionHandlingState where
  | tryState
  | catchState
  | finallyState
deriving Repr, DecidableEq

/-- `ExceptionHandlingContext` (src/vm/exception_handling_context.rs). -/
structure ExceptionHandlingContext where
  catchPointer : Int
  finallyPointer : Int
  endPointer : Int
  state : ExceptionHandlingState
deriving Repr

/-- One frame of the invocation stack (`ExecutionContext`,
src/vm/execution_context.rs).  The evaluation stack mirrors the
`VecDeque` of `EvaluationStack`: index 0 is the bottom, the last element is
the top (`push_back`).  The try stack mirrors the `Vec`: the last element
is the innermost region.  The shared-header indirection (`SharedStates`)
is flattened: no verified property executes `Call*`, so no two frames ever
share a header here. -/
structure Frame where
  script : List Nat
  ip : Nat
  evalStack : List StackItem
  tryStack : List ExceptionHandlingContext
  rvCount : Int
deriving Repr

/-- The engine (`ExecutionEngine`).  `refCount` is the reference counter's
`references_count` total, the only part of the counter the engine's
pre/post checks read; the per-item bookkeeping is modelled separately in
the `RC` namespace. -/
structure Engine where
  limits : Limits
  refCount : Nat
  invocationStack : List Frame
  resultStack : List StackItem
  uncaughtException : Option StackItem
  state : VMState
  isJumping : Bool
deriving Repr

/-- The outcome of a fallible engine operation.  `vmErr` is a returned
`Err(VMException...)`; `panic` is a Rust panic (process abort), which is
not a VM fault. -/
inductive ExecResult (α : Type) where
  | ok (value : α)
  | vmErr (msg : String)
  | panic (msg : String)
deriving Repr

instance : Monad ExecResult where
  pure := ExecResult.ok
  bind r f := match r with
    | .ok a => f a
    | .vmErr m => .vmErr m
    | .panic m => .panic m

/-- `current_context`: the top of the invocation stack. -/
def Engine.currentFrame? (e : Engine) : Option Frame :=
  e.invocationStack.getLast?

/-- Replace the current frame (mutation through `current_context`). -/
def Engine.updateFrame (e : Engine) (f : Frame → Frame) : Engine :=
  match e.invocationStack.getLast? with
  | none => e
  | some fr => { e with invocationStack := e.invocationStack.dropLast ++ [f fr] }

/-- `ExecutionEngine::push` (157-160): `EvaluationStack::push` appends to the
back and calls `add_stack_reference`, which increments `references_count`
by 1 for every item, tracked or not (reference_counter.rs 75-80). -/
def Engine.pushItem (e : Engine) (item : StackItem) : ExecResult Engine :=
  match e.currentFrame? with
  | none => .panic "called Option unwrap on a None value"
  | some _ =>
    .ok { e.updateFrame (fun fr => { fr with evalStack := fr.evalStack ++ [item] }) with
            refCount := e.refCount + 1 }

/-- `ExecutionEngine::pop` (152-155): `EvaluationStack::remove(0)` panics on
an empty stack ("Argument out of range", evaluation_stack.rs 103-121) and
calls `remove_stack_reference`, which decrements `references_count`.
The `Nat` subtraction is exact in every state this development evaluates. -/
def Engine.popItem (e : Engine) : ExecResult (StackItem × Engine) :=
  match e.currentFrame? with
  | none => .panic "called Option unwrap on a None value"
  | some fr =>
    match fr.evalStack.getLast? with
    | none => .panic "Argument out of range"
    | some item =>
      .ok (item,
        { e.updateFrame (fun fr => { fr with evalStack := fr.evalStack.dropLast }) with
            refCount := e.refCount - 1 })

/-- `get_integer` on a popped item.  `Integer::get_integer` returns the
value (primitive_types/integer.rs 264-266); `Boolean::get_integer` returns
1 or 0 (primitive_types/boolean.rs 147-149); every other variant's
`get_integer` in the source is `todo!()`, a panic. -/
def StackItem.getIntegerR : StackItem → ExecResult Int
  | .vmInteger n => .ok n
  | .vmBoolean b => .ok (if b then 1 else 0)
  | _ => .panic "not yet implemented"

/-- `get_slice` / `GetSpan` on a popped item: the byte-backed variants
return their bytes; the other variants are `todo!()` or panic in the
source. -/
def StackItem.getSliceR : StackItem → ExecResult (List Nat)
  | .vmByteString bs => .ok bs
  | .vmBuffer bs => .ok bs
  | _ => .panic "not yet implemented"

/-- `handle_error` (execution_engine.rs 1382-1385): state becomes `Fault`
and `uncaught_exception` is set to `Null`. -/
def Engine.handleError (e : Engine) : Engine :=
  { e with state := .fault, uncaughtException := some .vmNull }

/-- `execute_jump` (1374-1380).  The parameter is added to the instruction
pointer (`new_ip = (instr_pointer as i32 + offset) as usize`) even though
every caller already passes `instruction_pointer + offset`; the cast
`as usize` wraps.  A target at or past the end of the script is
`handle_error(Error::InvalidJump)`.  Note the source does not set
`is_jumping` here. -/
def Engine.executeJump (e : Engine) (offset : Int) : ExecResult Engine :=
  match e.currentFrame? with
  | none => .panic "called Option unwrap on a None value"
  | some fr =>
    let newIp := usizeOfInt ((fr.ip : Int) + offset)
    if newIp ≥ fr.script.length then .ok e.handleError
    else .ok (e.updateFrame (fun fr => { fr with ip := newIp }))

/-- `execute_jump_offset` (1367-1373): `(instruction_pointer as i32)
.checked_add(offset).unwrap()`, then `execute_jump` on the sum.  The
`checked_add` unwrap panics on `i32` overflow. -/
def Engine.executeJumpOffset (e : Engine) (offset : Int) : ExecResult Engine :=
  match e.currentFrame? with
  | none => .panic "called Option unwrap on a None value"
  | some fr =>
    let pos := (fr.ip : Int) + offset
    if pos < -(2 ^ 31) ∨ pos ≥ 2 ^ 31 then .panic "attempt to add with overflow"
    else e.executeJump pos

/-- `handle_exception` (1482-1489).  The walk over contexts and try regions
is present only as comments in the source; the body takes any pending
`uncaught_exception` and panics with "Unhandled exception". -/
def Engine.handleException (e : Engine) : ExecResult Engine :=
  match e.uncaughtException with
  | some _ => .panic "Unhandled exception"
  | none => .ok e

/-- `execute_throw` (1525-1528): record the exception, then
`handle_exception`. -/
def Engine.executeThrow (e : Engine) (exception : StackItem) : ExecResult Engine :=
  Engine.handleException { e with uncaughtException := some exception }

/-- `execute_try` (1491-1523).  Offsets arrive `as usize`.  Zero/zero is a
panic; overlong nesting is a panic; `catch_pointer` and `finally_pointer`
are `Some(ip + offset)` only for a positive offset, and both are then
`unwrap()`ed unconditionally when the region is pushed — a region with
either offset equal to zero panics.  `is_jumping` is set. -/
def Engine.executeTry (e : Engine) (catchOffset finallyOffset : Nat) : ExecResult Engine :=
  match e.currentFrame? with
  | none => .panic "called Option unwrap on a None value"
  | some fr =>
    if catchOffset = 0 ∧ finallyOffset = 0 then .panic "Invalid try block offsets"
    else if fr.tryStack.length ≥ e.limits.maxTryNestingDepth then
      .panic "Max try nesting depth exceeded"
    else
      match (if catchOffset > 0 then some (fr.ip + catchOffset) else none),
            (if finallyOffset > 0 then some (fr.ip + finallyOffset) else none) with
      | some catchPointer, some finallyPointer =>
        .ok { e.updateFrame (fun fr =>
                { fr with tryStack := fr.tryStack ++
                    [{ catchPointer := (catchPointer : Int),
                       finallyPointer := (finallyPointer : Int),
                       endPointer := 0,
                       state := .tryState }] }) with
              isJumping := true }
      | _, _ => .panic "called Option unwrap on a None value"

/-- `execute_instr` (172-1360), restricted to the opcode handlers the
verified properties exercise.  Handlers not needed by any property reduce
to a modelling-boundary panic with the message "handler not modelled";
no theorem in this development evaluates such an opcode. -/
def Engine.executeInstr (e : Engine) (instr : Instruction) : ExecResult Engine :=
  match instr.opcode with
  | .PushInt8 | .PushInt16 | .PushInt32 | .PushInt64 | .PushInt128 | .PushInt256 =>
    -- push(StackItem::from(VMInteger::from(instr.operand))): little-endian
    -- signed interpretation of the operand bytes
    let v := leNat instr.operand
    let width := instr.operand.length
    let n : Int := if v < 2 ^ (8 * width - 1) then (v : Int) else (v : Int) - 2 ^ (8 * width)
    e.pushItem (.vmInteger n)
  | .PushTrue => e.pushItem (.vmBoolean true)
  | .PushFalse => e.pushItem (.vmBoolean false)
  | .PushNull => e.pushItem .vmNull
  | .PushData1 | .PushData2 | .PushData4 =>
    -- limits.assert_max_item_size(operand.len()) then push a ByteString
    if e.limits.assertMaxItemSizeFails instr.operand.length then
      .panic "MaxItemSize exceeded"
    else e.pushItem (.vmByteString instr.operand)
  | .PushM1 | .Push0 | .Push1 | .Push2 | .Push3 | .Push4 | .Push5 | .Push6 | .Push7
  | .Push8 | .Push9 | .Push10 | .Push11 | .Push12 | .Push13 | .Push14 | .Push15
  | .Push16 =>
    -- push(VMInteger(instr.opcode - OpCode::Push0))
    e.pushItem (.vmInteger ((instr.opcode.toByte : Int) - (OpCode.Push0.toByte : Int)))
  | .Nop => .ok e
  | .Jmp => do
    match instr.operand[0]? with
    | none => .panic "index out of bounds"
    | some b => e.executeJumpOffset (i8OfByte b)
  | .JmpL =>
    if instr.operand.length < 4 then .panic "index out of bounds"
    else e.executeJumpOffset (i32OfLe (instr.operand.take 4))
  | .JmpIf => do
    let (x, e1) ← e.popItem
    if getBoolean x then
      match instr.operand[0]? with
      | none => .panic "index out of bounds"
      | some b => e1.executeJumpOffset (i8OfByte b)
    else pure e1
  | .JmpIfNot => do
    let (x, e1) ← e.popItem
    if !(getBoolean x) then
      match instr.operand[0]? with
      | none => .panic "index out of bounds"
      | some b => e1.executeJumpOffset (i8OfByte b)
    else pure e1
  | .Throw => do
    let (x, e1) ← e.popItem
    e1.executeThrow x
  | .Try => do
    -- catch = token_i8 (operand[0]), finally = token_i8_1 (operand[1]),
    -- both `as usize`
    match instr.operand[0]?, instr.operand[1]? with
    | some b0, some b1 =>
      e.executeTry (usizeOfInt (i8OfByte b0)) (usizeOfInt (i8OfByte b1))
    | _, _ => .panic "index out of bounds"
  | .TryL =>
    -- catch = token_i32 (operand[0..4]), finally = token_i32_1 (operand[4..8])
    if instr.operand.length < 8 then .panic "index out of bounds"
    else
      e.executeTry (usizeOfInt (i32OfLe (instr.operand.take 4)))
        (usizeOfInt (i32OfLe ((instr.operand.drop 4).take 4)))
  | .Ret =>
    -- (395-427) pop the frame; when it was the last one, the target stack is
    -- the result stack and the items are copied over (`CopyTo`, which does
    -- not touch the reference counter); when frames remain, the callee's
    -- evaluation stack is the caller's shared one (`clone_at_offset`), the
    -- reference-inequality guard fails and nothing is copied.
    match e.invocationStack.getLast? with
    | none => .panic "called Option unwrap on a None value"
    | some contextPop =>
      let e1 := { e with invocationStack := e.invocationStack.dropLast }
      if e1.invocationStack.isEmpty then
        if contextPop.rvCount ≥ 0 ∧ (contextPop.evalStack.length : Int) ≠ contextPop.rvCount then
          .vmErr "RVCount doesn't match with EvaluationStack"
        else
          .ok { e1 with
                  resultStack := e1.resultStack ++ contextPop.evalStack,
                  state := .halt,
                  isJumping := true }
      else .ok { e1 with isJumping := true }
  | .Add => do
    let (x2, e1) ← e.popItem
    let x2 ← x2.getIntegerR
    let (x1, e2) ← e1.popItem
    let x1 ← x1.getIntegerR
    e2.pushItem (.vmInteger (x1 + x2))
  | .Sub => do
    let (x2, e1) ← e.popItem
    let x2 ← x2.getIntegerR
    let (x1, e2) ← e1.popItem
    let x1 ← x1.getIntegerR
    e2.pushItem (.vmInteger (x1 - x2))
  | .Mul => do
    let (x2, e1) ← e.popItem
    let x2 ← x2.getIntegerR
    let (x1, e2) ← e1.popItem
    let x1 ← x1.getIntegerR
    e2.pushItem (.vmInteger (x1 * x2))
  | .Div => do
    -- (815-819) `x1 / x2` on `BigInt`: a zero divisor panics inside the
    -- num-bigint division; the handler performs no zero check and the
    -- `VMException::DivisionByZero` variant is never raised.
    let (x2, e1) ← e.popItem
    let x2 ← x2.getIntegerR
    let (x1, e2) ← e1.popItem
    let x1 ← x1.getIntegerR
    if x2 = 0 then .panic "attempt to divide by zero"
    else e2.pushItem (.vmInteger (Int.tdiv x1 x2))
  | .Mod => do
    -- (820-824) `x1 % x2`, the same missing zero check
    let (x2, e1) ← e.popItem
    let x2 ← x2.getIntegerR
    let (x1, e2) ← e1.popItem
    let x1 ← x1.getIntegerR
    if x2 = 0 then .panic "attempt to calculate the remainder with a divisor of zero"
    else e2.pushItem (.vmInteger (Int.tmod x1 x2))
  | .NewBuffer => do
    -- (640-644) length from the stack; `to_u32().unwrap()` panics on a
    -- negative length; assert_max_item_size panics on 0 or oversize
    let (x, e1) ← e.popItem
    let n ← x.getIntegerR
    if n < 0 then .panic "called Option unwrap on a None value"
    else if e1.limits.assertMaxItemSizeFails n.toNat then .panic "MaxItemSize exceeded"
    else e1.pushItem (.vmBuffer (List.replicate n.toNat 0))
  | .Cat => do
    -- (678-688) x2 then x1 popped; the combined length goes through
    -- assert_max_item_size; the result is a Buffer x1 ++ x2
    let (i2, e1) ← e.popItem
    let x2 ← i2.getSliceR
    let (i1, e2) ← e1.popItem
    let x1 ← i1.getSliceR
    if e2.limits.assertMaxItemSizeFails (x1.length + x2.length) then
      .panic "MaxItemSize exceeded"
    else e2.pushItem (.vmBuffer (x1 ++ x2))
  | .Pack => do
    -- (991-1006) size from the stack (`to_usize().unwrap()` panics when
    -- negative); pop `size` items, the old top becoming element 0
    let (x, e1) ← e.popItem
    let n ← x.getIntegerR
    if n < 0 then .panic "called Option unwrap on a None value"
    else if n.toNat > (e1.currentFrame?.map (fun fr => fr.evalStack.length)).getD 0 then
      .vmErr "The value is out of range"
    else do
      let (items, e2) ← popMany e1 n.toNat
      e2.pushItem (.vmArray items)
  | .Unpack => do
    -- (1007-1028) pop the compound; for an Array the source iterates
    -- `for i in (0..=array.array.len()).rev()`, so the first access is
    -- `array[array.len()]`, out of bounds
    let (x, e1) ← e.popItem
    match x with
    | .vmArray items => unpackPushLoop e1 items ((List.range (items.length + 1)).reverse)
    | .vmStruct _ => .vmErr "Invalid type for instruction"
    | .vmMap pairs => do
      let e2 ← unpackMapLoop e1 pairs.reverse
      e2.pushItem (.vmInteger (pairs.length : Int))
    | _ => .panic "invalid cast"
  | _ => .panic "handler not modelled"
where
  /-- The `for i in 0..size { let item = self.pop(); array.Add(item); }` loop
  of `Pack`: successive pops, in pop order. -/
  popMany : Engine → Nat → ExecResult (List StackItem × Engine)
    | e, 0 => .ok ([], e)
    | e, n + 1 => do
      let (item, e1) ← e.popItem
      let (rest, e2) ← popMany e1 n
      .ok (item :: rest, e2)
  /-- The `for i in (0..=array.array.len()).rev() { self.push(array[i]); }`
  loop of `Unpack` on an Array: pushes `items[i]` for the given index
  sequence, an out-of-range index being the `Vec` indexing panic. -/
  unpackPushLoop : Engine → List StackItem → List Nat → ExecResult Engine
    | e, _, [] => .ok e
    | e, items, i :: rest => do
      match items[i]? with
      | none => .panic "index out of bounds"
      | some item => do
        let e1 ← e.pushItem item
        unpackPushLoop e1 items rest
  /-- The Map arm of `Unpack`: for each pair in reverse insertion order,
  push the value then the key. -/
  unpackMapLoop : Engine → List (StackItem × StackItem) → ExecResult Engine
    | e, [] => .ok e
    | e, (k, v) :: rest => do
      let e1 ← e.pushItem v
      let e2 ← e1.pushItem k
      unpackMapLoop e2 rest

/-- The fetch step of `execute_next` (132-134):
`context.current_instruction.unwrap_or(Instruction::RET)`.
`current_instruction` resolves through `Script::get_instruction` to the
decoder, whose panics propagate; a decode `Err` (`ScriptError`) is
defaulted to `Instruction::RET` by the `unwrap_or`. -/
def Engine.fetchCurrent (e : Engine) : ExecResult Instruction :=
  match e.currentFrame? with
  | none => .panic "called Option unwrap on a None value"
  | some fr =>
    match fromScript fr.script fr.ip with
    | .ok i => .ok i
    | .errInvalidOpcode => .ok Instruction.RET
    | .errInvalidPrefixSize => .ok Instruction.RET
    | .panic m => .panic m

/-- `pre_execute_instruction` (1449-1463): panic when
`references_count > limits.max_stack_size`.  (The subsequent match arms
name `Instruction::JMP(..)` and `Instruction::CALL(..)`, constructors that
do not exist in the source tree; they are omitted.) -/
def Engine.preExecuteInstruction (e : Engine) : ExecResult Engine :=
  if e.refCount > e.limits.maxStackSize then .panic "Max stack size exceeded"
  else .ok e

/-- `post_execute_instruction` (1465-1481): panic when
`references_count > limits.max_stack_size`; then, for a `Ret` instruction
(the `Instruction::RET` arm), `invocation_stack.pop().unwrap()` — a second
pop of the frame the `Ret` handler already removed, and a panic when the
stack is already empty.  (The `Instruction::THROW` arm names a constructor
that does not exist and is omitted.)  `check_zero_referred()` is not
invoked anywhere in this function. -/
def Engine.postExecuteInstruction (e : Engine) (instr : Instruction) : ExecResult Engine :=
  if e.refCount > e.limits.maxStackSize then .panic "Max stack size exceeded"
  else
    match instr.opcode with
    | .Ret =>
      match e.invocationStack.getLast? with
      | none => .panic "called Option unwrap on a None value"
      | some _ => .ok { e with invocationStack := e.invocationStack.dropLast }
    | _ => .ok e

/-- `ExecutionContext::move_next` (execution_context.rs 137-143): the
instruction pointer advances by exactly 1, wrapping to 0 at the end of the
script. -/
def Engine.moveNextStep (e : Engine) : ExecResult Engine :=
  match e.currentFrame? with
  | none => .panic "called Option unwrap on a None value"
  | some fr =>
    let ip1 := fr.ip + 1
    let newIp := if ip1 ≥ fr.script.length then 0 else ip1
    .ok (e.updateFrame (fun fr => { fr with ip := newIp }))

/-- `execute_next` (128-150): empty invocation stack halts; otherwise
fetch, pre-check, dispatch, post-check, and `move_next` unless the handler
set `is_jumping`; finally `is_jumping` is reset.  (The source's handling of
a dispatch `Err` constructs and discards an exception value — the
`self.on_fault(e)` call is commented out and `on_fault` does not exist —
so a `vmErr` outcome is surfaced as its own terminal result here; no
verified property depends on it.) -/
def Engine.executeNext (e : Engine) : ExecResult Engine :=
  if e.invocationStack.isEmpty then .ok { e with state := .halt }
  else do
    let instr ← e.fetchCurrent
    let e0 ← e.preExecuteInstruction
    let e1 ← e0.executeInstr instr
    let e2 ← e1.postExecuteInstruction instr
    let e3 ← if e2.isJumping then pure e2 else e2.moveNextStep
    pure { e3 with isJumping := false }

/-- The observable outcome of running the engine for a bounded number of
steps. -/
inductive RunResult where
  | running (e : Engine)
  | finished (e : Engine)
  | vmError (msg : String)
  | panicked (msg : String)
deriving Repr

/-- The `while state != Halt && state != Fault` loop of `execute` (119-121),
fuelled. -/
def runSteps : Nat → Engine → RunResult
  | 0, e => .running e
  | fuel + 1, e =>
    if e.state = .halt ∨ e.state = .fault then .finished e
    else
      match e.executeNext with
      | .ok e1 => runSteps fuel e1
      | .vmErr m => .vmError m
      | .panic m => .panicked m

/-- `execute` (114-124): a `Break` state is first reset to `None`, then the
loop runs. -/
def executeVM (fuel : Nat) (e : Engine) : RunResult :=
  runSteps fuel (if e.state = .brk then { e with state := .nost } else e)

/-- The engine an embedder obtains from `ExecutionEngine::new()` followed by
`load_script(script, rvcount, 0)` (`create_context` + `load_context`):
one frame at instruction pointer 0, empty stacks, state `Break`. -/
def Engine.loadScript (script : List Nat) (limits : Limits) (rvcount : Int) : Engine :=
  { limits := limits
    refCount := 0
    invocationStack := [{ script := script, ip := 0, evalStack := [],
                          tryStack := [], rvCount := rvcount }]
    resultStack := []
    uncaughtException := none
    state := .brk
    isJumping := false }

/-- The instruction pointer of the current frame (0 when there is none). -/
def Engine.currentIp (e : Engine) : Nat :=
  (e.currentFrame?.map Frame.ip).getD 0

/-- The evaluation stack of the current frame ([] when there is none). -/
def Engine.currentStack (e : Engine) : List StackItem :=
  (e.currentFrame?.map Frame.evalStack).getD []



/-! ## Reference-counter bookkeeping
(`src/types/reference_counter.rs`, `src/vm/evaluation_stack.rs`, `src/vm/slot.rs`)

A world of evaluation stacks and slots sharing one reference counter.
Items are abstracted to identities (`Nat`); `tracked id` says the item is a
compound or `Buffer` (`ReferenceCounter::need_track`, reference_counter.rs
43-50).  Operations that panic in the source return `none`. -/

namespace RC

/-- The counter state: `references_count` and the per-item
`stack_references`. -/
structure Counter where
  refsCount : Nat
  stackRefs : Nat → Nat

/-- `add_stack_reference(item, count)` (reference_counter.rs 75-94):
`references_count += count` unconditionally; for a tracked item,
`stack_references += count`. -/
def addStackReference (tracked : Nat → Bool) (c : Counter) (id : Nat) (count : Nat) : Counter :=
  let c1 : Counter := { c with refsCount := c.refsCount + count }
  if tracked id then
    { c1 with stackRefs := Function.update c1.stackRefs id (c1.stackRefs id + count) }
  else c1

/-- `remove_stack_reference(item)` (reference_counter.rs 202-214):
`references_count -= 1` unconditionally; for a tracked item,
`stack_references -= 1`.  (`Nat` subtraction; the source would abort on
underflow, which never occurs in invariant-holding states.) -/
def removeStackReference (tracked : Nat → Bool) (c : Counter) (id : Nat) : Counter :=
  let c1 : Counter := { c with refsCount := c.refsCount - 1 }
  if tracked id then
    { c1 with stackRefs := Function.update c1.stackRefs id (c1.stackRefs id - 1) }
  else c1

/-- The engine-global picture the counter is meant to mirror: every
evaluation stack (each one an `inner_list`, index 0 the bottom) and every
slot vector. -/
structure World where
  counter : Counter
  evalStacks : List (List Nat)
  slots : List (List Nat)

/-- A fresh engine: `n` empty evaluation stacks, no slots, a zeroed
counter. -/
def World.init (n : Nat) : World :=
  { counter := { refsCount := 0, stackRefs := fun _ => 0 },
    evalStacks := List.replicate n [],
    slots := [] }

/-- `EvaluationStack::push` (evaluation_stack.rs 78-81): `push_back` then
`add_stack_reference`. -/
def stackPush (tracked : Nat → Bool) (w : World) (k : Nat) (id : Nat) : Option World :=
  match w.evalStacks[k]? with
  | none => none
  | some s =>
    some { w with evalStacks := w.evalStacks.set k (s ++ [id]),
                  counter := addStackReference tracked w.counter id 1 }

/-- `EvaluationStack::insert(index, item)` (evaluation_stack.rs 43-49):
panic when `index > len`; insert at distance `index` from the top
(position `len - index`); then `add_stack_reference`. -/
def stackInsert (tracked : Nat → Bool) (w : World) (k : Nat) (index : Nat) (id : Nat) :
    Option World :=
  match w.evalStacks[k]? with
  | none => none
  | some s =>
    if index > s.length then none
    else
      some { w with
               evalStacks := w.evalStacks.set k
                 (s.take (s.length - index) ++ id :: s.drop (s.length - index)),
               counter := addStackReference tracked w.counter id 1 }

/-- `EvaluationStack::remove(index)` (evaluation_stack.rs 103-121): panic
when `index ≥ len`; remove the item at distance `index` from the top
(position `len - index - 1`); then `remove_stack_reference`.
`pop` is `remove(0)` (line 95-97). -/
def stackRemove (tracked : Nat → Bool) (w : World) (k : Nat) (index : Nat) :
    Option (Nat × World) :=
  match w.evalStacks[k]? with
  | none => none
  | some s =>
    if index ≥ s.length then none
    else
      let p := s.length - index - 1
      match s[p]? with
      | none => none
      | some id =>
        some (id,
          { w with evalStacks := w.evalStacks.set k (s.take p ++ s.drop (p + 1)),
                   counter := removeStackReference tracked w.counter id })

/-- `EvaluationStack::clear` (evaluation_stack.rs 21-26):
`remove_stack_reference` for every item, then clear the list. -/
def stackClear (tracked : Nat → Bool) (w : World) (k : Nat) : Option World :=
  match w.evalStacks[k]? with
  | none => none
  | some s =>
    some { w with evalStacks := w.evalStacks.set k [],
                  counter := s.foldl (fun c id => removeStackReference tracked c id) w.counter }

/-- `EvaluationStack::copy_to(stack, count)` (evaluation_stack.rs 28-41):
panic when `count < -1` or when `count as usize > len` — the cast wraps,
so `count = -1` becomes `usize::MAX` and always panics, which makes the
`count == -1` copy-all alternative below unreachable; nothing for
`count == 0`; otherwise the top `count` items (all of them when
`count as usize == len`) are appended to the destination list.  No
reference-counter call is made.  (`self` and `stack` are two `&mut`,
hence distinct stacks.) -/
def stackCopyTo (w : World) (k j : Nat) (count : Int) : Option World :=
  if k = j then none
  else
    match w.evalStacks[k]?, w.evalStacks[j]? with
    | some src, some dst =>
      if count < -1 ∨ usizeOfInt count > src.length then none
      else if count = 0 then some w
      else
        let suffix :=
          if count = -1 ∨ usizeOfInt count = src.length then src
          else src.drop (src.length - usizeOfInt count)
        some { w with evalStacks := w.evalStacks.set j (dst ++ suffix) }
    | _, _ => none

/-- `EvaluationStack::move_to(stack, count)` (evaluation_stack.rs 51-62):
nothing for `count == 0`; otherwise `copy_to` followed by dropping the
copied suffix from the source list (`clear`/`drain` directly on the list,
again without touching the counter; the comparisons cast
`count as usize` exactly as in `copy_to`). -/
def stackMoveTo (w : World) (k j : Nat) (count : Int) : Option World :=
  if count = 0 then some w
  else
    match stackCopyTo w k j count with
    | none => none
    | some w1 =>
      match w1.evalStacks[k]? with
      | none => none
      | some src =>
        let remaining :=
          if count = -1 ∨ usizeOfInt count = src.length then []
          else src.take (src.length - usizeOfInt count)
        some { w1 with evalStacks := w1.evalStacks.set k remaining }

/-- `Slot::new(items, counter)` (slot.rs 12-21): the slot takes an initial
stack reference on each of its items. -/
def slotNew (tracked : Nat → Bool) (w : World) (items : List Nat) : World :=
  { w with slots := w.slots ++ [items],
           counter := items.foldl (fun c id => addStackReference tracked c id 1) w.counter }

/-- `Slot::set(index, value)` (slot.rs 46-50): replace the item, dropping a
reference for the old value and taking one for the new. -/
def slotSet (tracked : Nat → Bool) (w : World) (k : Nat) (i : Nat) (id : Nat) : Option World :=
  match w.slots[k]? with
  | none => none
  | some s =>
    match s[i]? with
    | none => none
    | some oldId =>
      some { w with
               slots := w.slots.set k (s.set i id),
               counter := addStackReference tracked
                 (removeStackReference tracked w.counter oldId) id 1 }

/-- Occurrences of an item across a list of stacks. -/
def occStacks (ss : List (List Nat)) (id : Nat) : Nat :=
  (ss.map (fun s => s.count id)).sum

/-- Total occurrences of an item on all evaluation stacks and slots. -/
def occ (w : World) (id : Nat) : Nat :=
  occStacks w.evalStacks id + occStacks w.slots id

/-- The claimed invariant: for every tracked value, `stack_references`
equals the number of occurrences on all evaluation stacks and slots. -/
def StackRefInvariant (tracked : Nat → Bool) (w : World) : Prop :=
  ∀ id, tracked id = true → w.counter.stackRefs id = occ w id

/-- States reachable from a fresh engine through the evaluation-stack and
slot operations.  The flag selects whether the bulk transfer `copy_to` is
among the allowed operations; `move_to` with a non-zero count is included
either way. -/
inductive Reachable (tracked : Nat → Bool) (allowCopy : Bool) : World → Prop where
  | init (n : Nat) : Reachable tracked allowCopy (World.init n)
  | push {w w' : World} (k id : Nat) :
      Reachable tracked allowCopy w → stackPush tracked w k id = some w' →
      Reachable tracked allowCopy w'
  | insert {w w' : World} (k index id : Nat) :
      Reachable tracked allowCopy w → stackInsert tracked w k index id = some w' →
      Reachable tracked allowCopy w'
  | remove {w : World} {r : Nat × World} (k index : Nat) :
      Reachable tracked allowCopy w → stackRemove tracked w k index = some r →
      Reachable tracked allowCopy r.2
  | clear {w w' : World} (k : Nat) :
      Reachable tracked allowCopy w → stackClear tracked w k = some w' →
      Reachable tracked allowCopy w'
  | moveTo {w w' : World} (k j : Nat) (count : Int) :
      Reachable tracked allowCopy w → stackMoveTo w k j count = some w' →
      Reachable tracked allowCopy w'
  | slotNew {w : World} (items : List Nat) :
      Reachable tracked allowCopy w →
      Reachable tracked allowCopy (slotNew tracked w items)
  | slotSet {w w' : World} (k i id : Nat) :
      Reachable tracked allowCopy w → slotSet tracked w k i id = some w' →
      Reachable tracked allowCopy w'
  | copyTo {w w' : World} (k j : Nat) (count : Int) :
      allowCopy = true →
      Reachable tracked allowCopy w → stackCopyTo w k j count = some w' →
      Reachable tracked allowCopy w'

/-- Every item tracked: a world of compounds/buffers only. -/
def trackedAll : Nat → Bool := fun _ => true

end RC



/-! ## Concrete scenario states

States used to evaluate the embedded code on explicit inputs: loaded
scripts, mid-execution frames, and reference-counter worlds. -/

/-- Projection: the engine inside an `ok` outcome. -/
def ExecResult.engineOf : ExecResult Engine → Option Engine
  | .ok e => some e
  | _ => none

/-- Projection: the current evaluation stack of a still-running or finished
run. -/
def RunResult.stackOf : RunResult → Option (List StackItem)
  | .running e => some e.currentStack
  | .finished e => some e.currentStack
  | _ => none

/-- Iterate `executeNext`, stopping (and keeping the last state) on any
non-`ok` outcome.  Used only to name intermediate states of concrete
traces. -/
def Engine.stepOkN : Nat → Engine → Engine
  | 0, e => e
  | n + 1, e =>
    match e.executeNext with
    | .ok e1 => Engine.stepOkN n e1
    | _ => e

/-- The script `Push2 · Push3 · Add · Ret`, loaded with default limits and a
pass-through return count (spec scenario 1). -/
def c1Engine : Engine := Engine.loadScript [0x12, 0x13, 0x9E, 0x40] Limits.default (-1)

/-- `c1Engine` after the `Break → None` reset of `execute`. -/
def c1Started : Engine := { c1Engine with state := VMState.nost }

/-- `c1Engine` after `Push2`, `Push3` and `Add` have executed. -/
def c1BeforeRet : Engine := Engine.stepOkN 3 c1Started

/-- The state `execute_instr` leaves behind for the final `Ret`:
frame popped, result stack filled, state `Halt`. -/
def c1AfterRet : Engine :=
  ((c1BeforeRet.executeInstr { opcode := .Ret, operand := [] }).engineOf).getD c1Started

/-- The script `Push1 · Push0 · Div`: the popped divisor is 0. -/
def c4Engine : Engine := Engine.loadScript [0x11, 0x10, 0xA1] Limits.default (-1)

/-- The claim's example script `Push0 · Push1 · Div · Ret`, whose popped
divisor is 1, not 0. -/
def c4ExampleEngine : Engine := Engine.loadScript [0x10, 0x11, 0xA1, 0x40] Limits.default (-1)

/-- A frame about to execute `Throw` (script byte 0x3A) with the exception
value on the stack and an armed innermost try region: state `Try`,
`catch_pointer = 14`, `finally_pointer = 16` (spec scenario 4 shape). -/
def c5Frame : Frame where
  script := [0x3A]
  ip := 0
  evalStack := [.vmByteString [0x65, 0x72, 0x72]]
  tryStack := [{ catchPointer := 14, finallyPointer := 16, endPointer := 0,
                 state := .tryState }]
  rvCount := -1

/-- The engine around `c5Frame`, mid-execution. -/
def c5Engine : Engine where
  limits := Limits.default
  refCount := 1
  invocationStack := [c5Frame]
  resultStack := []
  uncaughtException := none
  state := .nost
  isJumping := false

/-- A frame whose current instruction (at ip = 2) is `Jmp 0`
(bytes 0x22 0x00) inside a 6-byte script of `Nop`s. -/
def c6Frame : Frame where
  script := [0x21, 0x21, 0x22, 0x00, 0x21, 0x21]
  ip := 2
  evalStack := []
  tryStack := []
  rvCount := -1

/-- The engine around `c6Frame`. -/
def c6Engine : Engine := { c5Engine with refCount := 0, invocationStack := [c6Frame] }

/-- A frame about to execute `Unpack` with an `Array` of one element on the
stack. -/
def c8Frame : Frame where
  script := [0xC1]
  ip := 0
  evalStack := [.vmArray [.vmInteger 7]]
  tryStack := []
  rvCount := -1

/-- The engine around `c8Frame`. -/
def c8Engine : Engine := { c5Engine with invocationStack := [c8Frame] }

/-- A frame about to execute `Pack` with one item and the count 1 on the
stack. -/
def c8PackFrame : Frame where
  script := [0xC0]
  ip := 0
  evalStack := [.vmInteger 7, .vmInteger 1]
  tryStack := []
  rvCount := -1

/-- The engine around `c8PackFrame`. -/
def c8PackEngine : Engine := { c5Engine with refCount := 2, invocationStack := [c8PackFrame] }

/-- An engine whose reference-counter total (2049) exceeds the default
`max_stack_size` (2048), about to execute a `Nop`. -/
def c2Engine : Engine :=
  { c5Engine with
      refCount := 2049
      invocationStack := [{ c5Frame with script := [0x21], evalStack := [], tryStack := [] }] }

/-- A second over-limit engine (counter total 5000), for instantiating the
general statement. -/
def c2WitnessEngine : Engine := { c2Engine with refCount := 5000 }

/-- An engine about to execute `NewBuffer` with the length 0 on the
stack. -/
def c10NbEngine : Engine :=
  { c5Engine with
      invocationStack := [{ c5Frame with script := [0x88], evalStack := [.vmInteger 0], tryStack := [] }] }

/-- An engine about to execute `Cat` with two empty byte strings on the
stack. -/
def c10CatEngine : Engine :=
  { c5Engine with
      refCount := 2
      invocationStack :=
        [{ c5Frame with
             script := [0x8B]
             evalStack := [.vmByteString [], .vmByteString []]
             tryStack := [] }] }

/-- An engine about to execute `PushData1` whose decoded payload is
empty. -/
def c10PdEngine : Engine :=
  { c5Engine with
      refCount := 0
      invocationStack := [{ c5Frame with script := [0x0C, 0x00], evalStack := [], tryStack := [] }] }

/-- A reference-counter world: two empty evaluation stacks, then one tracked
item (id 0) pushed onto stack 0. -/
def c3World0 : RC.World :=
  (RC.stackPush RC.trackedAll (RC.World.init 2) 0 0).getD (RC.World.init 2)

/-- `c3World0` after `copy_to(stack 1, count 1)` (`1 as usize` equals the
source length, so the whole stack is copied): the item now occurs on both
stacks while its `stack_references` is still 1. -/
def c3BadWorld : RC.World :=
  (RC.stackCopyTo c3World0 0 1 1).getD c3World0



/-! ## Verified properties -/

/-- C1.  For the program `Push2 · Push3 · Add · Ret`, `execute()` does not
terminate with `Halt` and the result stack `[Integer 5]`: the three value
opcodes leave `Integer 5` on the evaluation stack and the `Ret` handler
itself pops the last frame, copies `[Integer 5]` to the result stack and
sets `Halt` — but `post_execute_instruction` then pops the invocation
stack a second time and its `unwrap()` of `None` panics, so the run
crashes. -/
theorem c1_push_add_ret_crashes :
    c1BeforeRet.currentStack = [StackItem.vmInteger 5] ∧
    (c1BeforeRet.executeInstr { opcode := .Ret, operand := [] }).engineOf = some c1AfterRet ∧
    c1AfterRet.resultStack = [StackItem.vmInteger 5] ∧
    c1AfterRet.state = VMState.halt ∧
    c1AfterRet.postExecuteInstruction { opcode := .Ret, operand := [] } =
      ExecResult.panic "called Option unwrap on a None value" ∧
    executeVM 10 c1Engine = RunResult.panicked "called Option unwrap on a None value" :=
  ⟨rfl, rfl, rfl, rfl, rfl, rfl⟩

/-- C4.  `Div` with a popped divisor of zero does not Fault with
`DivisionByZero`: the handler divides the `BigInt`s with no zero check, so
the division panics (the script `Push1 · Push0 · Div` crashes the
process).  Moreover the claim's example `Push0 · Push1 · Div · Ret` pops
the divisor 1, not 0, and its `Div` simply pushes `0/1 = 0`. -/
theorem c4_div_by_zero_panics :
    executeVM 10 c4Engine = RunResult.panicked "attempt to divide by zero" ∧
    (executeVM 3 c4ExampleEngine).stackOf = some [StackItem.vmInteger 0] :=
  ⟨rfl, rfl⟩

/-- C5.  `Throw` does not transfer control to an armed catch handler: with
the innermost try region in state `Try` and `catch_pointer = 14 ≥ 0`,
executing `Throw` reaches `handle_exception`, whose body ignores the try
stack and panics on any pending exception. -/
theorem c5_throw_with_catch_panics :
    c5Frame.tryStack = [{ catchPointer := 14, finallyPointer := 16, endPointer := 0,
                          state := .tryState }] ∧
    c5Engine.executeNext = ExecResult.panic "Unhandled exception" :=
  ⟨rfl, rfl⟩

/-- C6.  A taken jump does not set the new instruction pointer to `ip + d`:
`execute_jump_offset` passes the absolute position `ip + d` to
`execute_jump`, which adds `ip` again.  At `ip = 2` with offset `d = 0`
inside a 6-byte script the new instruction pointer is `2*2 + 0 = 4`, not
`2 + 0 = 2`.  (A full `execute_next` step then even advances once more,
because `execute_jump` never sets `is_jumping`, ending at 5.) -/
theorem c6_taken_jump_adds_ip_twice :
    c6Engine.currentIp = 2 ∧
    (c6Engine.executeJumpOffset 0).engineOf.map Engine.currentIp = some 4 ∧
    (c6Engine.executeNext).engineOf.map Engine.currentIp = some 5 ∧
    (4 : Nat) ≠ 2 + 0 :=
  ⟨rfl, rfl, rfl, by decide⟩

/-- C8.  `Pack` followed by `Unpack` does not restore the stack: `Pack 1`
correctly pops the count and one item and pushes `Array [Integer 7]`, but
the `Unpack` handler iterates `(0..=len).rev()`, so its first access is
`array[len]`, out of bounds — `Unpack` panics on every `Array`, and the
claimed net `+1` round trip never completes. -/
theorem c8_unpack_out_of_bounds :
    (c8PackEngine.executeInstr { opcode := .Pack, operand := [] }).engineOf.map
        Engine.currentStack = some [StackItem.vmArray [StackItem.vmInteger 7]] ∧
    c8Engine.executeInstr { opcode := .Unpack, operand := [] } =
      ExecResult.panic "index out of bounds" :=
  ⟨rfl, rfl⟩

/-- C9.  Decoding does not return `InvalidOperand` when the operand runs
past the script — it panics (the `OperandOutOfBounds` error variant is
never constructed): a lone `PushData1` byte panics reading its length
prefix, and a declared length of 2 with only 1 payload byte panics
slicing.  An unassigned byte (0x06) does yield the invalid-opcode error,
and a successful decode has total length 1 + prefix + operand. -/
theorem c9_decode_overrun_panics :
    fromScript [0x0C] 0 = DecodeResult.panic "index out of bounds" ∧
    fromScript [0x0C, 2, 0xAA] 0 = DecodeResult.panic "slice out of bounds" ∧
    fromScript [0x06] 0 = DecodeResult.errInvalidOpcode ∧
    fromScript [0x0C, 1, 0xAA] 0 = DecodeResult.ok { opcode := .PushData1, operand := [0xAA] } ∧
    Instruction.size { opcode := .PushData1, operand := [0xAA] } = 1 + 1 + 1 :=
  ⟨rfl, rfl, rfl, rfl, rfl⟩

/-- C10.  The maximum-item-size check rejects size zero as well as sizes
above `max_item_size` (`size == 0 || size > max_item_size`), so a byte item
of length 0 cannot be created through it: `PushData1` with an empty
payload, `NewBuffer` with length 0, and `Cat` of two empty strings all
fail this check even though 0 does not exceed `max_item_size`. -/
theorem c10_item_size_check_rejects_zero :
    (∀ L : Limits, L.assertMaxItemSizeFails 0 = true) ∧
    (∀ (L : Limits) (n : Nat), L.assertMaxItemSizeFails n = true ↔ (n = 0 ∨ n > L.maxItemSize)) ∧
    c10PdEngine.executeInstr { opcode := .PushData1, operand := [] } =
      ExecResult.panic "MaxItemSize exceeded" ∧
    c10NbEngine.executeInstr { opcode := .NewBuffer, operand := [] } =
      ExecResult.panic "MaxItemSize exceeded" ∧
    c10CatEngine.executeInstr { opcode := .Cat, operand := [] } =
      ExecResult.panic "MaxItemSize exceeded" := by
  refine ⟨fun L => rfl, fun L n => ?_, rfl, rfl, rfl⟩
  simp [Limits.assertMaxItemSizeFails]

/-- C7 (counterexample).  Truthiness is not as claimed: the implemented
`ByteString::get_boolean` returns "all bytes are zero", the negation of the
claimed "some byte is non-zero" (`ByteString [1]` is falsy though the
claim makes it truthy), and `Buffer::get_boolean` is constantly true
(`Buffer []` is truthy though the claim makes it falsy). -/
theorem c7_truthiness_claim_false :
    ¬ (∀ item : StackItem, getBoolean item = claimBooleanSpec item) := by
  intro h
  exact absurd (h (.vmByteString [1])) (by decide)

/-- C7 (amended).  `get_boolean` is: false for `Null`; `x` for
`Boolean(x)`; `n ≠ 0` for `Integer(n)`; for `ByteString`, true exactly when
every byte is zero (so the empty and all-zero strings are true); true for
every `Buffer`; true for every compound, for `Pointer` and for
`InteropInterface`. -/
theorem c7_truthiness_amended (item : StackItem) :
    getBoolean item = amendedBooleanSpec item := by
  cases item with
  | vmInteger n => by_cases h : n = 0 <;> simp [getBoolean, amendedBooleanSpec, h]
  | vmByteString bs =>
    show bs.all (fun b => b == 0) = decide (∀ b ∈ bs, b = 0)
    by_cases h : ∀ b ∈ bs, b = 0
    · have hl : bs.all (fun b => b == 0) = true := by
        simp only [List.all_eq_true, beq_iff_eq]
        exact h
      rw [hl, decide_eq_true h]
    · have hl : bs.all (fun b => b == 0) = false := by
        apply Bool.eq_false_iff.mpr
        intro hall
        exact h (by simpa [List.all_eq_true, beq_iff_eq] using hall)
      rw [hl, decide_eq_false h]
  | _ => rfl


/-- Reduction of the `ExecResult` bind on an `ok`. -/
theorem ExecResult.ok_bind {α β : Type} (a : α) (f : α → ExecResult β) :
    (ExecResult.ok a >>= f) = f a := rfl

/-- Reduction of the `ExecResult` bind on a `vmErr`. -/
theorem ExecResult.vmErr_bind {α β : Type} (m : String) (f : α → ExecResult β) :
    (ExecResult.vmErr m >>= f) = ExecResult.vmErr m := rfl

/-- Reduction of the `ExecResult` bind on a `panic`. -/
theorem ExecResult.panic_bind {α β : Type} (m : String) (f : α → ExecResult β) :
    (ExecResult.panic m >>= f) = ExecResult.panic m := rfl

/-- `pure` on `ExecResult` is `ok`. -/
theorem ExecResult.pure_eq_ok {α : Type} (a : α) :
    (pure a : ExecResult α) = ExecResult.ok a := rfl

/-- `updateFrame` only rewrites the invocation stack. -/
theorem Engine.updateFrame_refCount (e : Engine) (f : Frame → Frame) :
    (e.updateFrame f).refCount = e.refCount := by
  unfold Engine.updateFrame
  split <;> rfl

/-- `updateFrame` only rewrites the invocation stack. -/
theorem Engine.updateFrame_limits (e : Engine) (f : Frame → Frame) :
    (e.updateFrame f).limits = e.limits := by
  unfold Engine.updateFrame
  split <;> rfl

/-- A successful `post_execute_instruction` leaves the counter total and
the limits unchanged and certifies the bound it just checked. -/
theorem postExecuteInstruction_ok {e e' : Engine} {i : Instruction}
    (h : e.postExecuteInstruction i = ExecResult.ok e') :
    e'.refCount = e.refCount ∧ e'.limits = e.limits ∧
      e.refCount ≤ e.limits.maxStackSize := by
  unfold Engine.postExecuteInstruction at h
  by_cases hb : e.refCount > e.limits.maxStackSize
  · rw [if_pos hb] at h
    exact ExecResult.noConfusion h
  · rw [if_neg hb] at h
    have hble : e.refCount ≤ e.limits.maxStackSize := Nat.le_of_not_lt hb
    split at h
    · split at h
      · exact ExecResult.noConfusion h
      · injection h with h1
        subst h1
        exact ⟨rfl, rfl, hble⟩
    · injection h with h1
      subst h1
      exact ⟨rfl, rfl, hble⟩

/-- A successful `move_next` leaves the counter total and limits
unchanged. -/
theorem moveNextStep_ok {e e' : Engine} (h : e.moveNextStep = ExecResult.ok e') :
    e'.refCount = e.refCount ∧ e'.limits = e.limits := by
  unfold Engine.moveNextStep at h
  split at h
  · exact ExecResult.noConfusion h
  · injection h with h1
    subst h1
    exact ⟨Engine.updateFrame_refCount .., Engine.updateFrame_limits ..⟩

/-- A fetchable current instruction implies a non-empty invocation
stack. -/
theorem fetchCurrent_nonempty {e : Engine} {i : Instruction}
    (h : e.fetchCurrent = ExecResult.ok i) : ¬ e.invocationStack.isEmpty = true := by
  intro hemp
  have hnil : e.invocationStack = [] := List.isEmpty_iff.mp hemp
  unfold Engine.fetchCurrent at h
  simp [Engine.currentFrame?, hnil] at h

/-- C2 (counterexample).  A reference-counter total above `max_stack_size`
does not end execution in the `Fault` state: `pre_execute_instruction`
panics (`panic!("Max stack size exceeded")`), aborting the process
instead. -/
theorem c2_overflow_panics_not_fault :
    c2Engine.executeNext = ExecResult.panic "Max stack size exceeded" ∧
    c2Engine.executeNext ≠ ExecResult.ok { c2Engine with state := VMState.fault } := by
  refine ⟨rfl, ?_⟩
  intro h
  rw [show c2Engine.executeNext = ExecResult.panic "Max stack size exceeded" from rfl] at h
  exact ExecResult.noConfusion h

/-- C2 (amended).  The engine checks `total_references ≤ max_stack_size`
both before and after each dispatched instruction, and on a violation it
panics (aborts) rather than transitioning to `Fault`: whenever the current
instruction fetches and the bound is already violated, `execute_next` is
the panic; and whenever `execute_next` completes normally on a non-empty
invocation stack, the post-check has certified the bound at the
instruction boundary. -/
theorem c2_bound_checked_pre_and_post :
    (∀ (e : Engine) (i : Instruction),
        e.fetchCurrent = ExecResult.ok i →
        e.refCount > e.limits.maxStackSize →
        e.executeNext = ExecResult.panic "Max stack size exceeded") ∧
    (∀ (e e' : Engine),
        e.executeNext = ExecResult.ok e' →
        e.invocationStack ≠ [] →
        e'.refCount ≤ e'.limits.maxStackSize) := by
  constructor
  · intro e i hfetch hover
    unfold Engine.executeNext
    rw [if_neg (fetchCurrent_nonempty hfetch), hfetch, ExecResult.ok_bind]
    unfold Engine.preExecuteInstruction
    rw [if_pos hover, ExecResult.panic_bind]
  · intro e e' hok hne
    unfold Engine.executeNext at hok
    rw [if_neg (by simpa [List.isEmpty_iff] using hne)] at hok
    cases hf : e.fetchCurrent with
    | vmErr m => rw [hf, ExecResult.vmErr_bind] at hok; exact ExecResult.noConfusion hok
    | panic m => rw [hf, ExecResult.panic_bind] at hok; exact ExecResult.noConfusion hok
    | ok i =>
      rw [hf, ExecResult.ok_bind] at hok
      unfold Engine.preExecuteInstruction at hok
      by_cases hpre : e.refCount > e.limits.maxStackSize
      · rw [if_pos hpre, ExecResult.panic_bind] at hok
        exact ExecResult.noConfusion hok
      · rw [if_neg hpre, ExecResult.ok_bind] at hok
        cases hi : e.executeInstr i with
        | vmErr m => rw [hi, ExecResult.vmErr_bind] at hok; exact ExecResult.noConfusion hok
        | panic m => rw [hi, ExecResult.panic_bind] at hok; exact ExecResult.noConfusion hok
        | ok e1 =>
          rw [hi, ExecResult.ok_bind] at hok
          cases hp : e1.postExecuteInstruction i with
          | vmErr m => rw [hp, ExecResult.vmErr_bind] at hok; exact ExecResult.noConfusion hok
          | panic m => rw [hp, ExecResult.panic_bind] at hok; exact ExecResult.noConfusion hok
          | ok e2 =>
            rw [hp, ExecResult.ok_bind] at hok
            obtain ⟨hrc, hlim, hbound⟩ := postExecuteInstruction_ok hp
            by_cases hj : e2.isJumping = true
            · rw [if_pos hj, ExecResult.pure_eq_ok, ExecResult.ok_bind] at hok
              simp only [ExecResult.pure_eq_ok] at hok
              injection hok with h1
              subst h1
              show e2.refCount ≤ e2.limits.maxStackSize
              rw [hrc, hlim]
              exact hbound
            · rw [if_neg hj] at hok
              cases hm : e2.moveNextStep with
              | vmErr m =>
                rw [hm, ExecResult.vmErr_bind] at hok; exact ExecResult.noConfusion hok
              | panic m =>
                rw [hm, ExecResult.panic_bind] at hok; exact ExecResult.noConfusion hok
              | ok e3 =>
                rw [hm, ExecResult.ok_bind] at hok
                simp only [ExecResult.pure_eq_ok] at hok
                obtain ⟨hrc3, hlim3⟩ := moveNextStep_ok hm
                injection hok with h1
                subst h1
                show e3.refCount ≤ e3.limits.maxStackSize
                rw [hrc3, hlim3, hrc, hlim]
                exact hbound

/-- C2 (witness).  The amended statement applied at concrete engines: the
over-limit engine `c2WitnessEngine` (counter 5000 > 2048) panics, and the
state after the first step of the `Push2 · Push3 · Add · Ret` program
satisfies the bound. -/
theorem c2_bound_checked_pre_and_post_witness :
    c2WitnessEngine.executeNext = ExecResult.panic "Max stack size exceeded" ∧
    (Engine.stepOkN 1 c1Started).refCount ≤ (Engine.stepOkN 1 c1Started).limits.maxStackSize := by
  constructor
  · exact c2_bound_checked_pre_and_post.1 c2WitnessEngine { opcode := .Nop, operand := [] }
      rfl (by decide)
  · exact c2_bound_checked_pre_and_post.2 c1Started (Engine.stepOkN 1 c1Started) rfl
      (by simp [c1Started, c1Engine, Engine.loadScript])


namespace RC

/-- Pointwise effect of `add_stack_reference` on `stack_references`. -/
theorem addStackReference_stackRefs (tracked : Nat → Bool) (c : Counter) (v n id : Nat) :
    (addStackReference tracked c v n).stackRefs id =
      if id = v ∧ tracked v = true then c.stackRefs id + n else c.stackRefs id := by
  by_cases hv : tracked v = true
  · by_cases hid : id = v
    · subst hid
      simp [addStackReference, hv]
    · simp [addStackReference, hv, hid, Function.update_noteq hid]
  · simp [addStackReference, hv]

/-- Pointwise effect of `remove_stack_reference` on `stack_references`. -/
theorem removeStackReference_stackRefs (tracked : Nat → Bool) (c : Counter) (v id : Nat) :
    (removeStackReference tracked c v).stackRefs id =
      if id = v ∧ tracked v = true then c.stackRefs id - 1 else c.stackRefs id := by
  by_cases hv : tracked v = true
  · by_cases hid : id = v
    · subst hid
      simp [removeStackReference, hv]
    · simp [removeStackReference, hv, hid, Function.update_noteq hid]
  · simp [removeStackReference, hv]

/-- Folding `remove_stack_reference` over a list removes one reference per
occurrence. -/
theorem foldRemove_stackRefs (tracked : Nat → Bool) (s : List Nat) (c : Counter) (id : Nat) :
    (s.foldl (fun acc i => removeStackReference tracked acc i) c).stackRefs id =
      if tracked id = true then c.stackRefs id - s.count id else c.stackRefs id := by
  induction s generalizing c with
  | nil => simp
  | cons hd tl ih =>
    rw [List.foldl_cons, ih, removeStackReference_stackRefs]
    by_cases htr : tracked id = true
    · rw [if_pos htr, if_pos htr]
      by_cases hid : id = hd
      · rw [if_pos ⟨hid, hid ▸ htr⟩]
        have hc : (hd :: tl).count id = tl.count id + 1 := by
          subst hid
          simp [List.count_cons]
        omega
      · rw [if_neg (fun hc => hid hc.1)]
        have hc : (hd :: tl).count id = tl.count id := by
          simp [List.count_cons, Ne.symm hid]
        omega
    · rw [if_neg htr, if_neg htr,
          if_neg (by rintro ⟨h1, h2⟩; subst h1; exact htr h2)]

/-- Folding `add_stack_reference(·, 1)` over a list adds one reference per
occurrence. -/
theorem foldAdd_stackRefs (tracked : Nat → Bool) (s : List Nat) (c : Counter) (id : Nat) :
    (s.foldl (fun acc i => addStackReference tracked acc i 1) c).stackRefs id =
      if tracked id = true then c.stackRefs id + s.count id else c.stackRefs id := by
  induction s generalizing c with
  | nil => simp
  | cons hd tl ih =>
    rw [List.foldl_cons, ih, addStackReference_stackRefs]
    by_cases htr : tracked id = true
    · rw [if_pos htr, if_pos htr]
      by_cases hid : id = hd
      · rw [if_pos ⟨hid, hid ▸ htr⟩]
        have hc : (hd :: tl).count id = tl.count id + 1 := by
          subst hid
          simp [List.count_cons]
        omega
      · rw [if_neg (fun hc => hid hc.1)]
        have hc : (hd :: tl).count id = tl.count id := by
          simp [List.count_cons, Ne.symm hid]
        omega
    · rw [if_neg htr, if_neg htr,
          if_neg (by rintro ⟨h1, h2⟩; subst h1; exact htr h2)]

/-- `occStacks` over a cons. -/
theorem occStacks_cons (s : List Nat) (ss : List (List Nat)) (id : Nat) :
    occStacks (s :: ss) id = s.count id + occStacks ss id := by
  simp [occStacks]

/-- `occStacks` over an appended singleton. -/
theorem occStacks_append_single (ss : List (List Nat)) (s : List Nat) (id : Nat) :
    occStacks (ss ++ [s]) id = occStacks ss id + s.count id := by
  simp [occStacks]

/-- Replacing the `k`-th stack exchanges its contribution to the
occurrence count. -/
theorem occStacks_set (ss : List (List Nat)) (k : Nat) (s s' : List Nat) (id : Nat)
    (h : ss[k]? = some s) :
    occStacks (ss.set k s') id + s.count id = occStacks ss id + s'.count id := by
  induction ss generalizing k with
  | nil => simp at h
  | cons hd tl ih =>
    cases k with
    | zero =>
      simp only [List.getElem?_cons_zero, Option.some.injEq] at h
      subst h
      simp only [List.set_cons_zero, occStacks_cons]
      omega
    | succ k =>
      simp only [List.getElem?_cons_succ] at h
      have hh := ih k h
      simp only [List.set_cons_succ, occStacks_cons]
      omega

/-- Any single stack's count is bounded by the total occurrence count. -/
theorem count_le_occStacks (ss : List (List Nat)) (k : Nat) (s : List Nat) (id : Nat)
    (h : ss[k]? = some s) : s.count id ≤ occStacks ss id := by
  induction ss generalizing k with
  | nil => simp at h
  | cons hd tl ih =>
    cases k with
    | zero =>
      simp only [List.getElem?_cons_zero, Option.some.injEq] at h
      subst h
      rw [occStacks_cons]
      omega
    | succ k =>
      simp only [List.getElem?_cons_succ] at h
      have := ih k h
      rw [occStacks_cons]
      omega

/-- Occurrence count of an insertion at a position. -/
theorem count_insertAt (s : List Nat) (n : Nat) (v id : Nat) :
    (s.take n ++ v :: s.drop n).count id = s.count id + (if v = id then 1 else 0) := by
  have hsplit : (s.take n).count id + (s.drop n).count id = s.count id := by
    rw [← List.count_append, List.take_append_drop]
  rw [List.count_append, List.count_cons]
  simp only [beq_iff_eq]
  omega

/-- Occurrence count of a removal at a position. -/
theorem count_removeAt (s : List Nat) (p : Nat) (x id : Nat) (h : s[p]? = some x) :
    (s.take p ++ s.drop (p + 1)).count id + (if x = id then 1 else 0) = s.count id := by
  induction s generalizing p with
  | nil => simp at h
  | cons hd tl ih =>
    cases p with
    | zero =>
      simp only [List.getElem?_cons_zero, Option.some.injEq] at h
      rw [← h]
      simp only [List.take_zero, List.drop_succ_cons, List.drop_zero, List.nil_append,
        List.count_cons, beq_iff_eq]
    | succ p =>
      simp only [List.getElem?_cons_succ] at h
      have hh := ih p h
      simp only [List.take_succ_cons, List.drop_succ_cons, List.cons_append, List.count_cons,
        beq_iff_eq]
      omega

/-- Occurrence count of an in-place replacement. -/
theorem count_set (s : List Nat) (i : Nat) (v x id : Nat) (h : s[i]? = some x) :
    (s.set i v).count id + (if x = id then 1 else 0) =
      s.count id + (if v = id then 1 else 0) := by
  induction s generalizing i with
  | nil => simp at h
  | cons hd tl ih =>
    cases i with
    | zero =>
      simp only [List.getElem?_cons_zero, Option.some.injEq] at h
      rw [← h]
      simp only [List.set_cons_zero, List.count_cons, beq_iff_eq]
      omega
    | succ i =>
      simp only [List.getElem?_cons_succ] at h
      have hh := ih i h
      simp only [List.set_cons_succ, List.count_cons, beq_iff_eq]
      omega

end RC


namespace RC

/-- `push` preserves the occurrence invariant. -/
theorem stackPush_preserves {tracked : Nat → Bool} {w w' : World} {k v : Nat}
    (h : stackPush tracked w k v = some w')
    (ih : StackRefInvariant tracked w) : StackRefInvariant tracked w' := by
  unfold stackPush at h
  cases hs : w.evalStacks[k]? with
  | none => rw [hs] at h; exact Option.noConfusion h
  | some s =>
    rw [hs] at h
    injection h with h1
    subst h1
    intro id htr
    have hocc := ih id htr
    have hset := occStacks_set w.evalStacks k s (s ++ [v]) id hs
    have hcnt : (s ++ [v]).count id = s.count id + (if v = id then 1 else 0) := by
      rw [List.count_append, List.count_singleton']
    rw [addStackReference_stackRefs]
    unfold occ at hocc ⊢
    dsimp only
    by_cases hc : id = v ∧ tracked v = true
    · rw [if_pos hc]
      have hv1 : (if v = id then 1 else 0) = 1 := if_pos hc.1.symm
      omega
    · rw [if_neg hc]
      have hv0 : (if v = id then 1 else 0) = 0 := by
        rw [if_neg]
        intro hv
        exact hc ⟨hv.symm, hv ▸ htr⟩
      omega

/-- `insert` preserves the occurrence invariant. -/
theorem stackInsert_preserves {tracked : Nat → Bool} {w w' : World} {k index v : Nat}
    (h : stackInsert tracked w k index v = some w')
    (ih : StackRefInvariant tracked w) : StackRefInvariant tracked w' := by
  unfold stackInsert at h
  cases hs : w.evalStacks[k]? with
  | none => rw [hs] at h; exact Option.noConfusion h
  | some s =>
    rw [hs] at h
    dsimp only at h
    by_cases hidx : index > s.length
    · rw [if_pos hidx] at h; exact Option.noConfusion h
    · rw [if_neg hidx] at h
      injection h with h1
      subst h1
      intro id htr
      have hocc := ih id htr
      have hset := occStacks_set w.evalStacks k s
        (s.take (s.length - index) ++ v :: s.drop (s.length - index)) id hs
      have hcnt := count_insertAt s (s.length - index) v id
      rw [addStackReference_stackRefs]
      unfold occ at hocc ⊢
      dsimp only
      by_cases hc : id = v ∧ tracked v = true
      · rw [if_pos hc]
        have hv1 : (if v = id then 1 else 0) = 1 := if_pos hc.1.symm
        omega
      · rw [if_neg hc]
        have hv0 : (if v = id then 1 else 0) = 0 := by
          rw [if_neg]
          intro hv
          exact hc ⟨hv.symm, hv ▸ htr⟩
        omega

/-- `remove` (hence `pop`) preserves the occurrence invariant. -/
theorem stackRemove_preserves {tracked : Nat → Bool} {w : World} {r : Nat × World}
    {k index : Nat} (h : stackRemove tracked w k index = some r)
    (ih : StackRefInvariant tracked w) : StackRefInvariant tracked r.2 := by
  unfold stackRemove at h
  cases hs : w.evalStacks[k]? with
  | none => rw [hs] at h; exact Option.noConfusion h
  | some s =>
    rw [hs] at h
    dsimp only at h
    by_cases hidx : index ≥ s.length
    · rw [if_pos hidx] at h; exact Option.noConfusion h
    · rw [if_neg hidx] at h
      cases hp : s[s.length - index - 1]? with
      | none => rw [hp] at h; exact Option.noConfusion h
      | some v =>
        rw [hp] at h
        injection h with h1
        subst h1
        intro id htr
        have hocc := ih id htr
        have hset := occStacks_set w.evalStacks k s
          (s.take (s.length - index - 1) ++ s.drop (s.length - index - 1 + 1)) id hs
        have hcnt := count_removeAt s (s.length - index - 1) v id hp
        rw [removeStackReference_stackRefs]
        unfold occ at hocc ⊢
        dsimp only
        by_cases hc : id = v ∧ tracked v = true
        · rw [if_pos hc]
          have hv1 : (if v = id then 1 else 0) = 1 := if_pos hc.1.symm
          omega
        · rw [if_neg hc]
          have hv0 : (if v = id then 1 else 0) = 0 := by
            rw [if_neg]
            intro hv
            exact hc ⟨hv.symm, hv ▸ htr⟩
          omega

/-- `clear` preserves the occurrence invariant. -/
theorem stackClear_preserves {tracked : Nat → Bool} {w w' : World} {k : Nat}
    (h : stackClear tracked w k = some w')
    (ih : StackRefInvariant tracked w) : StackRefInvariant tracked w' := by
  unfold stackClear at h
  cases hs : w.evalStacks[k]? with
  | none => rw [hs] at h; exact Option.noConfusion h
  | some s =>
    rw [hs] at h
    injection h with h1
    subst h1
    intro id htr
    have hocc := ih id htr
    have hset := occStacks_set w.evalStacks k s [] id hs
    have hfold := foldRemove_stackRefs tracked s w.counter id
    rw [if_pos htr] at hfold
    unfold occ at hocc ⊢
    dsimp only
    rw [hfold]
    have hnil : ([] : List Nat).count id = 0 := rfl
    omega

/-- `move_to` preserves the occurrence invariant: the items leave the
source exactly as they appear on the destination, and the counter is not
touched. -/
theorem stackMoveTo_preserves {tracked : Nat → Bool} {w w' : World} {k j : Nat} {count : Int}
    (h : stackMoveTo w k j count = some w')
    (ih : StackRefInvariant tracked w) : StackRefInvariant tracked w' := by
  unfold stackMoveTo at h
  by_cases h0 : count = 0
  · rw [if_pos h0] at h
    injection h with h1
    subst h1
    exact ih
  · rw [if_neg h0] at h
    cases hc : stackCopyTo w k j count with
    | none => rw [hc] at h; exact Option.noConfusion h
    | some w1 =>
      rw [hc] at h
      unfold stackCopyTo at hc
      by_cases hkj : k = j
      · rw [if_pos hkj] at hc; exact Option.noConfusion hc
      · rw [if_neg hkj] at hc
        cases hsk : w.evalStacks[k]? with
        | none =>
          rw [hsk] at hc
          cases hsj : w.evalStacks[j]? <;> rw [hsj] at hc <;> exact Option.noConfusion hc
        | some src =>
          rw [hsk] at hc
          cases hsj : w.evalStacks[j]? with
          | none => rw [hsj] at hc; exact Option.noConfusion hc
          | some dst =>
            rw [hsj] at hc
            dsimp only at hc
            by_cases hrange : count < -1 ∨ usizeOfInt count > src.length
            · rw [if_pos hrange] at hc; exact Option.noConfusion hc
            · rw [if_neg hrange, if_neg h0] at hc
              injection hc with hc1
              subst hc1
              dsimp only at h
              rw [List.getElem?_set_ne (fun hj => hkj hj.symm), hsk] at h
              dsimp only at h
              injection h with h1
              subst h1
              intro id htr
              have hocc := ih id htr
              have hsetj := occStacks_set w.evalStacks j dst
                (dst ++ (if count = -1 ∨ usizeOfInt count = src.length then src
                  else src.drop (src.length - usizeOfInt count))) id hsj
              have hsetk := occStacks_set
                (w.evalStacks.set j
                  (dst ++ (if count = -1 ∨ usizeOfInt count = src.length then src
                    else src.drop (src.length - usizeOfInt count)))) k src
                (if count = -1 ∨ usizeOfInt count = src.length then []
                  else src.take (src.length - usizeOfInt count)) id
                (by rw [List.getElem?_set_ne (fun hj => hkj hj.symm)]; exact hsk)
              unfold occ at hocc ⊢
              dsimp only
              by_cases hfull : count = -1 ∨ usizeOfInt count = src.length
              · simp only [if_pos hfull] at hsetj hsetk ⊢
                have happ : (dst ++ src).count id = dst.count id + src.count id :=
                  List.count_append ..
                have hnil : ([] : List Nat).count id = 0 := rfl
                omega
              · simp only [if_neg hfull] at hsetj hsetk ⊢
                have happ : (dst ++ src.drop (src.length - usizeOfInt count)).count id =
                    dst.count id + (src.drop (src.length - usizeOfInt count)).count id :=
                  List.count_append ..
                have hsplit : (src.take (src.length - usizeOfInt count)).count id +
                    (src.drop (src.length - usizeOfInt count)).count id = src.count id := by
                  rw [← List.count_append, List.take_append_drop]
                omega

/-- `Slot::new` preserves the occurrence invariant. -/
theorem slotNew_preserves {tracked : Nat → Bool} {w : World} {items : List Nat}
    (ih : StackRefInvariant tracked w) :
    StackRefInvariant tracked (slotNew tracked w items) := by
  intro id htr
  have hocc := ih id htr
  unfold slotNew
  unfold occ at hocc ⊢
  dsimp only
  rw [occStacks_append_single]
  have hfold := foldAdd_stackRefs tracked items w.counter id
  rw [if_pos htr] at hfold
  omega

/-- `Slot::set` preserves the occurrence invariant. -/
theorem slotSet_preserves {tracked : Nat → Bool} {w w' : World} {k i v : Nat}
    (h : slotSet tracked w k i v = some w')
    (ih : StackRefInvariant tracked w) : StackRefInvariant tracked w' := by
  unfold slotSet at h
  cases hs : w.slots[k]? with
  | none => rw [hs] at h; exact Option.noConfusion h
  | some s =>
    rw [hs] at h
    dsimp only at h
    cases hi : s[i]? with
    | none => rw [hi] at h; exact Option.noConfusion h
    | some oldId =>
      rw [hi] at h
      injection h with h1
      subst h1
      intro id htr
      have hocc := ih id htr
      have hset := occStacks_set w.slots k s (s.set i v) id hs
      have hcnt := count_set s i v oldId id hi
      rw [addStackReference_stackRefs, removeStackReference_stackRefs]
      unfold occ at hocc ⊢
      dsimp only
      by_cases hcv : id = v ∧ tracked v = true
      · rw [if_pos hcv]
        have hv1 : (if v = id then 1 else 0) = 1 := if_pos hcv.1.symm
        by_cases hco : id = oldId ∧ tracked oldId = true
        · rw [if_pos hco]
          have ho1 : (if oldId = id then 1 else 0) = 1 := if_pos hco.1.symm
          have hpos : 0 < s.count id :=
            hco.1.symm ▸ List.count_pos_iff.mpr (List.getElem?_mem hi)
          have hle := count_le_occStacks w.slots k s id hs
          omega
        · rw [if_neg hco]
          have ho0 : (if oldId = id then 1 else 0) = 0 := by
            rw [if_neg]
            intro hv
            exact hco ⟨hv.symm, hv ▸ htr⟩
          omega
      · rw [if_neg hcv]
        have hv0 : (if v = id then 1 else 0) = 0 := by
          rw [if_neg]
          intro hv
          exact hcv ⟨hv.symm, hv ▸ htr⟩
        by_cases hco : id = oldId ∧ tracked oldId = true
        · rw [if_pos hco]
          have ho1 : (if oldId = id then 1 else 0) = 1 := if_pos hco.1.symm
          omega
        · rw [if_neg hco]
          have ho0 : (if oldId = id then 1 else 0) = 0 := by
            rw [if_neg]
            intro hv
            exact hco ⟨hv.symm, hv ▸ htr⟩
          omega

end RC

/-- C3 (amended).  For every tracked value, `stack_references` equals the
total number of occurrences on all evaluation stacks and slots in every
state reachable through `push`, `insert`, `pop`/`remove`, `clear`,
`move_to` and the slot operations — but not `copy_to`: `copy_to` appends
items to the destination stack without incrementing their counts (the
counter is left entirely unchanged), so the equation can fail after a
`copy_to`. -/
theorem c3_refcount_matches_occurrences_without_copy :
    (∀ (tracked : Nat → Bool) (w : RC.World),
        RC.Reachable tracked false w → RC.StackRefInvariant tracked w) ∧
    (∀ (w w' : RC.World) (k j : Nat) (count : Int),
        RC.stackCopyTo w k j count = some w' → w'.counter = w.counter) := by
  constructor
  · intro tracked w hreach
    induction hreach with
    | init n =>
      intro id htr
      simp [RC.World.init, RC.occ, RC.occStacks]
    | push k v hr hop ih => exact RC.stackPush_preserves hop ih
    | insert k index v hr hop ih => exact RC.stackInsert_preserves hop ih
    | remove k index hr hop ih => exact RC.stackRemove_preserves hop ih
    | clear k hr hop ih => exact RC.stackClear_preserves hop ih
    | moveTo k j count hr hop ih => exact RC.stackMoveTo_preserves hop ih
    | slotNew items hr ih => exact RC.slotNew_preserves ih
    | slotSet k i v hr hop ih => exact RC.slotSet_preserves hop ih
    | copyTo k j count hAllow hr hop ih => exact Bool.noConfusion hAllow
  · intro w w' k j count h
    unfold RC.stackCopyTo at h
    by_cases hkj : k = j
    · rw [if_pos hkj] at h; exact Option.noConfusion h
    · rw [if_neg hkj] at h
      cases hsk : w.evalStacks[k]? with
      | none =>
        rw [hsk] at h
        cases hsj : w.evalStacks[j]? <;> rw [hsj] at h <;> exact Option.noConfusion h
      | some src =>
        rw [hsk] at h
        cases hsj : w.evalStacks[j]? with
        | none => rw [hsj] at h; exact Option.noConfusion h
        | some dst =>
          rw [hsj] at h
          dsimp only at h
          by_cases hrange : count < -1 ∨ usizeOfInt count > src.length
          · rw [if_pos hrange] at h; exact Option.noConfusion h
          · rw [if_neg hrange] at h
            by_cases h0 : count = 0
            · rw [if_pos h0] at h
              injection h with h1
              subst h1
              rfl
            · rw [if_neg h0] at h
              injection h with h1
              subst h1
              rfl

/-- C3 (counterexample).  It is false that `stack_references` always equals
the occurrence total: from a fresh engine, pushing one tracked item onto
stack 0 and then `copy_to`-ing stack 0 onto stack 1 with count 1 (both
operations of the evaluation stack; `1 as usize` equals the source length,
so the whole stack is copied) reaches a state where the item occurs twice
but its `stack_references` is still 1, because `copy_to` extends the
destination list without calling `add_stack_reference`. -/
theorem c3_copy_to_breaks_refcount :
    ¬ (∀ (w : RC.World), RC.Reachable RC.trackedAll true w →
        RC.StackRefInvariant RC.trackedAll w) := by
  intro hclaim
  have hpush : RC.Reachable RC.trackedAll true c3World0 :=
    @RC.Reachable.push RC.trackedAll true (RC.World.init 2) c3World0 0 0
      (RC.Reachable.init 2) rfl
  have hreach : RC.Reachable RC.trackedAll true c3BadWorld :=
    @RC.Reachable.copyTo RC.trackedAll true c3World0 c3BadWorld 0 1 1 rfl hpush (by rfl)
  have hinv := hclaim c3BadWorld hreach 0 rfl
  exact absurd hinv (by decide)

/-- C3 (witness).  The amended statement applied at concrete states: the
world reached by one `push` satisfies the occurrence equation, and the
`copy_to` that breaks it indeed leaves the counter unchanged. -/
theorem c3_refcount_matches_occurrences_witness :
    RC.StackRefInvariant RC.trackedAll c3World0 ∧
    c3BadWorld.counter = c3World0.counter := by
  constructor
  · exact c3_refcount_matches_occurrences_without_copy.1 RC.trackedAll c3World0
      (@RC.Reachable.push RC.trackedAll false (RC.World.init 2) c3World0 0 0
        (RC.Reachable.init 2) rfl)
  · exact c3_refcount_matches_occurrences_without_copy.2 c3World0 c3BadWorld 0 1 1
      (by rfl)

end NeoVM
